import Mathlib

set_option maxHeartbeats 1000000

/-! Verification development for the SDP transformation pipeline and the
track/SSRC correlation engine of a WebRTC peer-connection wrapper
(`TraceableUnifiedPlanPeerConnection` and its SDP utility module).

The JavaScript sources are shallowly embedded: parsed SDP objects (as
produced by the `sdp-transform` library) become Lean structures, JavaScript
`Map`/`Set` objects become insertion-ordered association lists, promise
success/failure continuations become pure state transitions on an explicit
commit result, and the string-splicing helpers that work on raw SDP text are
embedded at line granularity (an SDP is a list of CRLF-terminated lines, and
the searched markers occur only at line starts, as they do in well-formed
SDP text). -/

namespace LibJitsi

/-- Insertion-ordered association list rendering a JavaScript `Map`:
`set` on an existing key updates the entry in place, `set` on a fresh key
appends at the end, exactly like `Map.prototype.set`. -/
abbrev JsMap (α β : Type) := List (α × β)

namespace JsMap

/-- `Map.prototype.get`. -/
def get? {α β : Type} [BEq α] (m : JsMap α β) (k : α) : Option β :=
  (m.find? (fun p => p.1 == k)).map (fun p => p.2)

/-- `Map.prototype.has`. -/
def has {α β : Type} [BEq α] (m : JsMap α β) (k : α) : Bool :=
  (m.find? (fun p => p.1 == k)).isSome

/-- `Map.prototype.set`: update the entry in place when the key is present
(keys are unique in a JavaScript `Map`), append otherwise. -/
def set {α β : Type} [BEq α] : JsMap α β → α → β → JsMap α β
  | [], k, v => [(k, v)]
  | (a, b) :: m, k, v =>
    if a == k then (k, v) :: m else (a, b) :: set m k v

end JsMap

/-- The `options` bag handed to `TraceableUnifiedPlanPeerConnection`
(only the flags the embedded functions consult). -/
structure TPCOptions where
  disableSimulcast : Bool
  disableRtx : Bool
  capScreenshareBitrate : Bool
  enableFirefoxSimulcast : Bool
  startSilent : Bool
deriving DecidableEq, Repr

/-- Capability answers of the global `browser` detector, supplied at
construction time in the embedding (the sources query a process-wide
singleton). -/
structure BrowserCaps where
  supportsSimulcast : Bool
  isFirefox : Bool
  supportsRtx : Bool
  chromeGreaterThan70 : Bool
deriving DecidableEq, Repr

/-! ## C2 — the `setLocalDescription` commit continuation

`TraceableUnifiedPlanPeerConnection.prototype.setLocalDescription`
(part_000 lines 1860-1917) transforms the description and then commits it
to the transport; the promise handlers (lines 1897-1916) are embedded here
as a pure transition on the stored local ufrag, parameterised by the
transport commit outcome and by the ufrag `SDPUtil.getUfrag` extracts from
the committed description (`undefined` becomes `none`). -/

/-- Events the commit continuation can emit on the RTC event bus. -/
inductive SldEvent where
  | localUfragChanged (ufrag : Option String)
  | setLocalDescriptionFailed (err : String)
deriving DecidableEq, Repr

/-- Success/failure continuation of `setLocalDescription`: given the
transport commit outcome, the ufrag extracted from the committed
description and the currently stored `this.localUfrag`, returns the new
stored ufrag, the emitted events and the promise outcome. -/
def setLocalDescriptionCommit (commit : Except String Unit)
    (committedUfrag storedUfrag : Option String) :
    Option String × List SldEvent × Except String Unit :=
  match commit with
  | Except.ok _ =>
    if committedUfrag != storedUfrag then
      (committedUfrag, [SldEvent.localUfragChanged committedUfrag], Except.ok ())
    else
      (storedUfrag, [], Except.ok ())
  | Except.error err =>
    (storedUfrag, [SldEvent.setLocalDescriptionFailed err], Except.error err)

/-! ## C3 — `generateNewStreamSSRCInfo` -/

/-- `SIMULCAST_LAYERS` (part_000 line 25). -/
def SIMULCAST_LAYERS : Nat := 3

/-- `TPCGroupInfo`: an SSRC group, primary member first. -/
structure TPCGroupInfo where
  semantics : String
  ssrcs : List Nat
deriving DecidableEq, Repr

/-- `TPCSSRCInfo`: all of a local track's SSRCs together with its groups.
The `msid` field is attached by `generateNewStreamSSRCInfo` before the info
is stored. -/
structure TPCSSRCInfo where
  ssrcs : List Nat
  groups : List TPCGroupInfo
  msid : String
deriving DecidableEq, Repr

/-- `TraceableUnifiedPlanPeerConnection.prototype.isSimulcastOn`
(part_000 lines 431-442). -/
def isSimulcastOn (options : TPCOptions) (b : BrowserCaps) : Bool :=
  !options.disableSimulcast && b.supportsSimulcast
    && (!b.isFirefox || options.enableFirefoxSimulcast)

/-- `TraceableUnifiedPlanPeerConnection.prototype.generateNewStreamSSRCInfo`
(part_000 lines 2697-2751). `gen i` is the `i`-th value produced by
`SDPUtil.generateSsrc` during this call — the fresh-SSRC generator lives
outside the given sources and is abstracted as an input stream. `hasCamera`
renders `hasCameraTrack(this)` (part_000 lines 2432-2435), `msid` the
value of `track.storedMSID`, and `localSSRCs` the per-track info map that
the call updates. -/
def generateNewStreamSSRCInfo (options : TPCOptions) (b : BrowserCaps)
    (hasCamera : Bool) (gen : Nat → Nat) (msid : String) (rtcId : Nat)
    (localSSRCs : JsMap Nat TPCSSRCInfo) :
    TPCSSRCInfo × JsMap Nat TPCSSRCInfo :=
  let ssrcInfo : TPCSSRCInfo :=
    if isSimulcastOn options b
        && (!options.capScreenshareBitrate
            || (options.capScreenshareBitrate && hasCamera)) then
      let simSsrcs := (List.range SIMULCAST_LAYERS).map gen
      { ssrcs := simSsrcs
        groups := [{ semantics := "SIM", ssrcs := simSsrcs }]
        msid := "" }
    else
      { ssrcs := [gen 0], groups := [], msid := "" }
  let generated := ssrcInfo.ssrcs.length
  let ssrcInfo :=
    if !options.disableRtx && b.supportsRtx then
      let currNumSsrcs := ssrcInfo.ssrcs.length
      (List.range currNumSsrcs).foldl
        (fun info i =>
          let primarySsrc := info.ssrcs.getD i 0
          let rtxSsrc := gen (generated + i)
          { info with
            ssrcs := info.ssrcs ++ [rtxSsrc]
            groups := info.groups
              ++ [{ semantics := "FID", ssrcs := [primarySsrc, rtxSsrc] }] })
        ssrcInfo
    else ssrcInfo
  let ssrcInfo := { ssrcInfo with msid := msid }
  (ssrcInfo, localSSRCs.set rtcId ssrcInfo)

/-! ## The parsed-SDP model (the `sdp-transform` view)

Several pipeline steps run `transform.parse`, edit the resulting object and
re-serialise it with `transform.write`. Those steps are embedded directly on
the parsed form; `parse`/`write` round-tripping (spec §4.1) makes the raw and
parsed views interchangeable for the touched fields. -/

/-- One `a=rtpmap` entry of a media section (`rtp` array of `sdp-transform`). -/
structure RtpEntry where
  payload : Nat
  codec : String
  rate : Nat
deriving DecidableEq, Repr

/-- One `a=fmtp` entry of a media section (`fmtp` array of `sdp-transform`). -/
structure FmtpEntry where
  payload : Nat
  config : String
deriving DecidableEq, Repr

/-- One `a=ssrc` attribute line (`ssrcs` array of `sdp-transform`); the JS
field named `attribute` is rendered `attr` (Lean reserves the word). -/
structure SsrcEntry where
  id : Nat
  attr : String
  value : String
deriving DecidableEq, Repr

/-- One `a=ssrc-group` line (`ssrcGroups` array of `sdp-transform`): the
member SSRCs stay a space-separated string, as `sdp-transform` keeps them. -/
structure SsrcGroupEntry where
  semantics : String
  ssrcs : String
deriving DecidableEq, Repr

/-- A media section of a parsed SDP. `simulcast03` renders the presence of
the `simulcast_03` attribute; `direction` is the section's direction
attribute. -/
structure MLine where
  type : String
  direction : String
  payloads : String
  rtp : List RtpEntry
  fmtp : List FmtpEntry
  ssrcs : List SsrcEntry
  ssrcGroups : List SsrcGroupEntry
  simulcast03 : Bool
deriving DecidableEq, Repr

/-- A parsed session description (`transform.parse` result). -/
structure SessionSdp where
  media : List MLine
deriving DecidableEq, Repr

/-- An `RTCSessionDescription`, with its `sdp` field held in parsed form. -/
structure RTCSessionDesc where
  type : String
  sdp : SessionSdp
deriving DecidableEq, Repr

/-- Replace the first element satisfying `p` by `x` (the in-place mutation
of an object found by `Array.prototype.find`, seen from outside). -/
def setFirstBy {α : Type} (p : α → Bool) (x : α) : List α → List α
  | [] => []
  | a :: as => if p a then x :: as else a :: setFirstBy p x as

/-- Test selecting the video media section (`m => m.type === 'video'`). -/
def isVideoMLine (m : MLine) : Bool := m.type == "video"

/-- Splitting accumulator for `splitSpace`. -/
def splitSpaceAux : List Char → List Char → List String
  | [], acc => [String.mk acc.reverse]
  | c :: cs, acc =>
    if c = ' ' then String.mk acc.reverse :: splitSpaceAux cs []
    else splitSpaceAux cs (c :: acc)

/-- JavaScript `s.split(' ')` (single-space separator, empty pieces kept). -/
def splitSpace (s : String) : List String := splitSpaceAux s.data []

/-- JavaScript `array.join(' ')`. -/
def joinSpace : List String → String
  | [] => ""
  | [s] => s
  | s :: rest => s ++ " " ++ joinSpace rest

/-- JavaScript `s.toLowerCase()` on the ASCII range (codec names are
ASCII). -/
def toLowerAscii (s : String) : String :=
  String.mk (s.data.map (fun c =>
    if 'A' ≤ c ∧ c ≤ 'Z' then Char.ofNat (c.toNat + 32) else c))

/-! ## C5 — `_injectH264IfNotPresent` -/

/-- JavaScript strict equality between a string and a number: the operands
have different types, so it is false whatever the values. This is the
comparison `payloadsArray.includes(i)` performs in
`_injectH264IfNotPresent`: `payloadsArray` holds the strings produced by
`payloads.toString().split(' ')` while `i` is a number. -/
def strictEqStringNat (_s : String) (_n : Nat) : Bool := false

/-- The descending loop indices `127, 126, ..., 96` of the payload-type
search. -/
def payloadSearchOrder : List Nat := (List.range 32).map (fun k => 127 - k)

/-- `TraceableUnifiedPlanPeerConnection.prototype._injectH264IfNotPresent`
(part_000 lines 2130-2187). -/
def injectH264IfNotPresent (description : RTCSessionDesc) : RTCSessionDesc :=
  let parsedSdp := description.sdp
  match parsedSdp.media.find? isVideoMLine with
  | none => description
  | some videoMLine =>
    if videoMLine.rtp.any (fun r => toLowerAscii r.codec == "h264") then
      description
    else
      let payloadsArray := splitSpace videoMLine.payloads
      match payloadSearchOrder.find?
          (fun i => !(payloadsArray.any (fun s => strictEqStringNat s i))) with
      | none => description
      | some dummyPayloadType =>
        let payloadsArray := payloadsArray ++ [toString dummyPayloadType]
        let videoMLine' :=
          { videoMLine with
            payloads := joinSpace payloadsArray
            rtp := videoMLine.rtp
              ++ [{ payload := dummyPayloadType, codec := "H264"
                    rate := 90000 }]
            fmtp := videoMLine.fmtp
              ++ [{ payload := dummyPayloadType
                    config := "level-asymmetry-allowed=1;packetization-mode=1;profile-level-id=42e01f" }] }
        { type := description.type
          sdp := { media := setFirstBy isVideoMLine videoMLine'
                      parsedSdp.media } }

/-- A remote description whose video section lacks H264 and whose occupied
payload types include 127 (payload list `96 97 127`). -/
def c5Desc : RTCSessionDesc :=
  { type := "offer"
    sdp := { media :=
      [{ type := "video", direction := "sendrecv", payloads := "96 97 127"
         rtp := [{ payload := 96, codec := "VP8", rate := 90000 },
                 { payload := 97, codec := "rtx", rate := 90000 },
                 { payload := 127, codec := "red", rate := 90000 }]
         fmtp := [], ssrcs := [], ssrcGroups := [], simulcast03 := false }] } }

/-! ## C7 — `enforceSendRecv`

`enforceSendRecv` (part_000 lines 1217-1252) is applied unconditionally in
the `localDescription` getter (line 1356) before the description is
signalled. The `SdpTransformWrap` helper it drives lives outside the given
sources; per spec §4.1 the wrapper is a parse/serialise round-trip, so
selecting a media section is `find?` on the parsed media list and
`toRawSDP` re-serialises the edited structure. -/

/-- Test selecting the audio media section. -/
def isAudioMLine (m : MLine) : Bool := m.type == "audio"

/-- `enforceSendRecv(localDescription, options)` (part_000 lines
1217-1252). -/
def enforceSendRecv (localDescription : RTCSessionDesc)
    (options : TPCOptions) : RTCSessionDesc :=
  let audioMedia := localDescription.sdp.media.find? isAudioMLine
  let audioStep : Option MLine × Bool :=
    match audioMedia with
    | some am =>
      if am.direction != "sendrecv" then
        (some { am with direction :=
                  if options.startSilent then "inactive" else "sendrecv" },
         true)
      else (some am, false)
    | none => (none, false)
  let videoMedia := localDescription.sdp.media.find? isVideoMLine
  let videoStep : Option MLine × Bool :=
    match videoMedia with
    | some vm =>
      if vm.direction != "sendrecv" then
        (some { vm with direction := "sendrecv" }, true)
      else (some vm, false)
    | none => (none, false)
  if audioStep.2 || videoStep.2 then
    let media := match audioStep.1 with
      | some am => setFirstBy isAudioMLine am localDescription.sdp.media
      | none => localDescription.sdp.media
    let media := match videoStep.1 with
      | some vm => setFirstBy isVideoMLine vm media
      | none => media
    { type := localDescription.type, sdp := { media := media } }
  else localDescription

/-- A local description with one `recvonly` audio section. -/
def c7Desc : RTCSessionDesc :=
  { type := "offer"
    sdp := { media :=
      [{ type := "audio", direction := "recvonly", payloads := "111"
         rtp := [], fmtp := [], ssrcs := [], ssrcGroups := []
         simulcast03 := false }] } }

/-- Options with `startSilent` set. -/
def c7Options : TPCOptions :=
  { disableSimulcast := false, disableRtx := false
    capScreenshareBitrate := false, enableFirefoxSimulcast := false
    startSilent := true }

/-- Concrete audio section used by the C7 witness. -/
def c7wAudio : MLine :=
  { type := "audio", direction := "recvonly", payloads := "111"
    rtp := [], fmtp := [], ssrcs := [], ssrcGroups := []
    simulcast03 := false }

/-- Concrete video section used by the C7 witness. -/
def c7wVideo : MLine :=
  { type := "video", direction := "recvonly", payloads := "96"
    rtp := [], fmtp := [], ssrcs := [], ssrcGroups := []
    simulcast03 := false }

/-- Concrete description used by the C7 witness. -/
def c7wDesc : RTCSessionDesc :=
  { type := "offer", sdp := { media := [c7wAudio, c7wVideo] } }

/-- Options with `startSilent` unset, used by the C7 witness. -/
def c7wOptions : TPCOptions :=
  { disableSimulcast := false, disableRtx := false
    capScreenshareBitrate := false, enableFirefoxSimulcast := false
    startSilent := false }

/-! ## `_injectSsrcGroupForUnifiedSimulcast` (used by C8) -/

/-- `TraceableUnifiedPlanPeerConnection.prototype._injectSsrcGroupForUnifiedSimulcast`
(part_000 lines 1280-1308). Returns `none` when the description has no
video section (the JS code dereferences `undefined` there). -/
def injectSsrcGroupForUnifiedSimulcast (desc : RTCSessionDesc) :
    Option RTCSessionDesc :=
  let sdp := desc.sdp
  match sdp.media.find? isVideoMLine with
  | none => none
  | some video =>
    if video.simulcast03 then
      let ssrcs := (video.ssrcs.filter (fun s => s.attr == "msid")).map
        (fun s => s.id)
      if (video.ssrcGroups.find? (fun g => g.semantics == "SIM")).isSome then
        some desc
      else
        let video' := { video with ssrcGroups := video.ssrcGroups
            ++ [{ semantics := "SIM"
                  ssrcs := joinSpace (ssrcs.map (fun n => toString n)) }] }
        some { type := desc.type
               sdp := { media := setFirstBy isVideoMLine video' sdp.media } }
    else
      some { type := desc.type, sdp := sdp }

/-- A media-section list whose sections are all settled for
`enforceSendRecv` under the given options: a present audio section is
`sendrecv` (or `inactive` under `startSilent`), a present video section is
`sendrecv`. -/
def enforceSettled (options : TPCOptions) (media : List MLine) : Prop :=
  (∀ am, media.find? isAudioMLine = some am →
      am.direction = "sendrecv"
      ∨ (options.startSilent = true ∧ am.direction = "inactive"))
  ∧ (∀ vm, media.find? isVideoMLine = some vm → vm.direction = "sendrecv")

/-! ## C4 — `_ensureSimulcastGroupIsLast`

This helper works on the raw SDP text with `indexOf`/`lastIndexOf` and
splices the `a=ssrc-group:SIM` line after the last `a=ssrc-group` line. It
is embedded at line granularity: the SDP is the list of its CRLF-terminated
lines, and the markers `m=video`, `a=ssrc-group:SIM`, `a=ssrc-group` occur
only at line starts (as in well-formed SDP text), so character positions
correspond to line indices. -/

/-- Character-level list comparison behind `strStartsWith`. -/
def startsWithChars : List Char → List Char → Bool
  | _, [] => true
  | [], _ :: _ => false
  | c :: cs, d :: ds => if c = d then startsWithChars cs ds else false

/-- JavaScript `s.startsWith(marker)` over the underlying characters. -/
def strStartsWith (s marker : String) : Bool :=
  startsWithChars s.data marker.data

/-- A line opening the video media section (`indexOf('m=video')`). -/
def hasVideoMarker (l : String) : Bool := strStartsWith l ("m=video")

/-- A simulcast group line (`indexOf('a=ssrc-group:SIM', ...)`). -/
def isSimGroupLine (l : String) : Bool :=
  strStartsWith l ("a=ssrc-group:SIM")

/-- Any ssrc-group line (`lastIndexOf('a=ssrc-group')`). -/
def isSsrcGroupLine (l : String) : Bool := strStartsWith l ("a=ssrc-group")

/-- Index of the first element satisfying `p` (JavaScript `indexOf`). -/
def firstIdx {α : Type} (p : α → Bool) : List α → Option Nat
  | [] => none
  | l :: ls => if p l then some 0 else (firstIdx p ls).map (fun i => i + 1)

/-- Index of the last element satisfying `p` (JavaScript `lastIndexOf`). -/
def lastIdx {α : Type} (p : α → Bool) : List α → Option Nat
  | [] => none
  | l :: ls =>
    match lastIdx p ls with
    | some i => some (i + 1)
    | none => if p l then some 0 else none

/-- Remove the first element equal to `target` (JavaScript
`replace(simStr, '')` on the joined text). -/
def removeFirstEq (target : String) : List String → List String
  | [] => []
  | l :: ls => if l == target then ls else l :: removeFirstEq target ls

/-- `TraceableUnifiedPlanPeerConnection.prototype._ensureSimulcastGroupIsLast`
(part_000 lines 1771-1802), at line granularity. A `lastIndexOf` result of
`-1` after the removal falls back to inserting after the first line, as the
character arithmetic of the source does. -/
def ensureSimulcastGroupIsLast (sdp : List String) : List String :=
  let videoStartIndex := firstIdx hasVideoMarker sdp
  let simStartIndex :=
    match videoStartIndex with
    | none => firstIdx isSimGroupLine sdp
    | some v => (firstIdx isSimGroupLine (sdp.drop v)).map (fun i => i + v)
  let otherStartIndex := lastIdx isSsrcGroupLine sdp
  match simStartIndex, otherStartIndex with
  | some si, some oi =>
    if oi == si then sdp
    else
      let simStr := sdp.getD si ""
      let sdp1 := removeFirstEq simStr sdp
      let j := (lastIdx isSsrcGroupLine sdp1).getD 0
      sdp1.take (j + 1) ++ simStr :: sdp1.drop (j + 1)
  | _, _ => sdp

/-- A description whose first video section holds SIM and FID group lines,
followed by an audio section that also carries an ssrc-group line. -/
def c4Sdp : List String :=
  ["m=video 9", "a=ssrc-group:FID 1 2", "a=ssrc-group:SIM 1 3 5",
   "m=audio 0", "a=ssrc-group:FID 7 8"]

/-! ## C8 — idempotence of the structural rewrite steps -/

/-- Video section already carrying a "SIM" ssrc-group, for the C8
witness. -/
def c8SimVideo : MLine :=
  { type := "video", direction := "sendrecv", payloads := "96"
    rtp := [], fmtp := []
    ssrcs := [{ id := 1, attr := "msid", value := "s t" }]
    ssrcGroups := [{ semantics := "SIM", ssrcs := "1 2 3" }]
    simulcast03 := true }

/-- Description around `c8SimVideo`. -/
def c8SimDesc : RTCSessionDesc :=
  { type := "offer", sdp := { media := [c8SimVideo] } }

/-- Video section already carrying the H264 codec, for the C8 witness. -/
def c8H264Video : MLine :=
  { type := "video", direction := "sendrecv", payloads := "96 127"
    rtp := [{ payload := 127, codec := "H264", rate := 90000 }]
    fmtp := [], ssrcs := [], ssrcGroups := [], simulcast03 := false }

/-- Description around `c8H264Video`. -/
def c8H264Desc : RTCSessionDesc :=
  { type := "offer", sdp := { media := [c8H264Video] } }

/-! ## C9 — `_createRemoteTrack` -/

/-- The slice of a `JitsiRemoteTrack` the correlation map stores: the
constructor arguments of part_000 lines 799-810, with WebRTC stream/track
objects rendered by numeric handles (`===` on objects is handle
equality). -/
structure JitsiRemoteTrack where
  ownerEndpointId : String
  stream : Nat
  track : Nat
  mediaType : String
  videoType : String
  ssrc : Nat
  muted : Bool
deriving DecidableEq, Repr

/-- `this.remoteTracks`: endpoint id → media type → remote track. -/
abbrev RemoteTracksMap := JsMap String (JsMap String JitsiRemoteTrack)

/-- Track events emitted on the RTC event bus. -/
inductive RtcTrackEvent where
  | remoteTrackAdded (t : JitsiRemoteTrack)
deriving DecidableEq, Repr

/-- `TraceableUnifiedPlanPeerConnection.prototype._createRemoteTrack`
(part_000 lines 768-815), as a transition on the `remoteTracks` map
returning the emitted events. -/
def createRemoteTrack (remoteTracks : RemoteTracksMap)
    (ownerEndpointId : String) (stream track : Nat)
    (mediaType videoType : String) (ssrc : Nat) (muted : Bool) :
    RemoteTracksMap × List RtcTrackEvent :=
  let remoteTracksMap :=
    match remoteTracks.get? ownerEndpointId with
    | some m => m
    | none => []
  let remoteTracks1 :=
    match remoteTracks.get? ownerEndpointId with
    | some _ => remoteTracks
    | none => remoteTracks.set ownerEndpointId []
  let existingTrack := remoteTracksMap.get? mediaType
  let remoteTrack : JitsiRemoteTrack :=
    { ownerEndpointId := ownerEndpointId, stream := stream, track := track
      mediaType := mediaType, videoType := videoType, ssrc := ssrc
      muted := muted }
  let added :=
    (remoteTracks1.set ownerEndpointId
        (remoteTracksMap.set mediaType remoteTrack),
     [RtcTrackEvent.remoteTrackAdded remoteTrack])
  match existingTrack with
  | some et =>
    if et.track == track then (remoteTracks, []) else added
  | none => added

/-- The remote track stored for an (endpoint, media kind) pair. -/
def lookupRemote (rt : RemoteTracksMap) (e k : String) :
    Option JitsiRemoteTrack :=
  (rt.get? e).bind (fun m => m.get? k)

/-- Well-formedness of the nested map: outer and inner key lists are
duplicate-free (as they are for JavaScript `Map`s). -/
def wfRemoteTracks (rt : RemoteTracksMap) : Prop :=
  (rt.map (fun p => p.1)).Nodup
    ∧ ∀ p ∈ rt, (p.2.map (fun q => q.1)).Nodup

/-- Number of remote-track entries held for an (endpoint, media kind)
pair. -/
def remoteEntryCount (rt : RemoteTracksMap) (e k : String) : Nat :=
  ((rt.filter (fun p => p.1 == e)).map
    (fun p => (p.2.filter (fun q => q.1 == k)).length)).sum

/-- Concrete remote track for the C9 witness. -/
def c9Track : JitsiRemoteTrack :=
  { ownerEndpointId := "alice", stream := 5, track := 40
    mediaType := "video", videoType := "camera", ssrc := 111
    muted := false }

/-- Concrete remote-tracks map for the C9 witness. -/
def c9Map : RemoteTracksMap := [("alice", [("video", c9Track)])]

/-! ## C10 — `getTrackBySSRC` -/

/-- The slice of a `JitsiLocalTrack` the lookup consults. -/
structure JitsiLocalTrack where
  rtcId : Nat
deriving DecidableEq, Repr

/-- `TraceableUnifiedPlanPeerConnection.prototype.getLocalSSRC` (part_000
lines 1258-1262): `ssrcInfo && ssrcInfo.ssrcs[0]` — `undefined` (rendered
`none`) when there is no info or the ssrc list is empty. -/
def getLocalSSRC (localSSRCs : JsMap Nat TPCSSRCInfo)
    (localTrack : JitsiLocalTrack) : Option Nat :=
  (localSSRCs.get? localTrack.rtcId).bind (fun info => info.ssrcs.head?)

/-- The state `getTrackBySSRC` consults: local tracks in map-insertion
order, the local SSRC info map, and the remote track map. -/
structure PCState where
  localTracks : List JitsiLocalTrack
  localSSRCs : JsMap Nat TPCSSRCInfo
  remoteTracks : RemoteTracksMap
deriving Repr

/-- `getRemoteTracks()` without filters (part_000 lines 529-559): all
remote tracks, endpoint map order then media-type map order. -/
def getRemoteTracksAll (rt : RemoteTracksMap) : List JitsiRemoteTrack :=
  (rt.map (fun p => p.2.map (fun q => q.2))).foldr
    (fun a b => a ++ b) []

/-- A JavaScript argument value: a number or something else. -/
inductive JsInput where
  | num (n : Nat)
  | str (s : String)
  | undef
deriving DecidableEq, Repr

/-- Either kind of track `getTrackBySSRC` can return. -/
inductive JitsiTrack where
  | localTrack (t : JitsiLocalTrack)
  | remoteTrack (t : JitsiRemoteTrack)
deriving DecidableEq, Repr

/-- `TraceableUnifiedPlanPeerConnection.prototype.getTrackBySSRC`
(part_000 lines 567-583): throws unless the argument is a number, then
scans local tracks (by primary SSRC) and then remote tracks, returning
`null` when nothing matches. -/
def getTrackBySSRC (st : PCState) (ssrc : JsInput) :
    Except String (Option JitsiTrack) :=
  match ssrc with
  | JsInput.num n =>
    match st.localTracks.find?
        (fun t => getLocalSSRC st.localSSRCs t == some n) with
    | some t => Except.ok (some (JitsiTrack.localTrack t))
    | none =>
      match (getRemoteTracksAll st.remoteTracks).find?
          (fun r => r.ssrc == n) with
      | some r => Except.ok (some (JitsiTrack.remoteTrack r))
      | none => Except.ok none
  | JsInput.str s => Except.error ("SSRC " ++ s ++ " is not a number")
  | JsInput.undef => Except.error ("SSRC undefined is not a number")

/-- Concrete connection state for the C10 witness: one local track with
primary SSRC 111 and one remote track with SSRC 222. -/
def c10State : PCState :=
  { localTracks := [{ rtcId := 3 }]
    localSSRCs := [(3, { ssrcs := [111], groups := [], msid := "m0" })]
    remoteTracks := [("bob",
      [("audio", { ownerEndpointId := "bob", stream := 1, track := 2
                   mediaType := "audio", videoType := "", ssrc := 222
                   muted := false })])] }

/-! ## C6 — `replaceDefaultUnifiedPlanMsid` -/

/-- Body of the `problematicSsrcIds.forEach` loop of
`replaceDefaultUnifiedPlanMsid`: find the cname line of the SSRC (crash —
`none` — when there is none, as setting `.value` on `undefined` throws),
rewrite its value, drop every line of the SSRC and re-append the rewritten
cname line. -/
def msidStep (filteredLines : List SsrcEntry) (ssrcId : Nat) :
    Option (List SsrcEntry) :=
  match filteredLines.find?
      (fun l => l.id == ssrcId && l.attr == "cname") with
  | none => none
  | some cnameLine =>
    let cnameLine :=
      { cnameLine with value := "recvonly-" ++ toString ssrcId }
    some ((filteredLines.filter (fun l => !(l.id == ssrcId)))
      ++ [cnameLine])

/-- `replaceDefaultUnifiedPlanMsid(ssrcLines)` (part_000 lines 1182-1210).
The `browser.isChrome() && browser.isVersionGreaterThan(70)` guard is
passed in through `b`. -/
def replaceDefaultUnifiedPlanMsid (b : BrowserCaps)
    (ssrcLines : List SsrcEntry) : Option (List SsrcEntry) :=
  if !b.chromeGreaterThan70 then some ssrcLines
  else
    let problematicSsrcIds :=
      (ssrcLines.filter (fun l => l.attr == "mslabel" && l.value == "-")).map
        (fun l => l.id)
    problematicSsrcIds.foldlM msidStep ssrcLines

/-- The receive-only SSRC ids of a line list (those whose `mslabel` is the
sentinel `-`). -/
def problematicIds (ssrcLines : List SsrcEntry) : List Nat :=
  (ssrcLines.filter (fun l => l.attr == "mslabel" && l.value == "-")).map
    (fun l => l.id)

/-- Chrome above version 70, as the guard requires. -/
def chromeCaps : BrowserCaps :=
  { supportsSimulcast := true, isFirefox := false, supportsRtx := true
    chromeGreaterThan70 := true }

/-- Concrete ssrc-line list for the C6 witness: SSRC 5 is receive-only
(mslabel `-`) with cname/msid/mslabel/label lines, SSRC 6 is ordinary. -/
def c6Lines : List SsrcEntry :=
  [{ id := 5, attr := "cname", value := "ab" },
   { id := 5, attr := "msid", value := "- x" },
   { id := 5, attr := "mslabel", value := "-" },
   { id := 5, attr := "label", value := "x" },
   { id := 6, attr := "cname", value := "cd" },
   { id := 6, attr := "msid", value := "s t" }]

/-! ## C1 — `updateTrackIdsToSSRCs`

The Plan B SDP of the track-ids-to-SSRCs utility (part_001) is embedded at
line granularity, structured at exactly the shapes its regexes read:
`a=ssrc:<n> msid:<msid> <trackId>` lines, other `a=ssrc:<n> <rest>` lines,
`a=ssrc-group` lines and opaque rest. SSRCs stay strings, as the regex
captures are strings throughout the utility. -/

/-- A line of a Plan B SDP as the utility reads it. -/
inductive PlanBLine where
  | ssrcMsid (ssrc : String) (msid : String) (trackId : String)
  | ssrcAttr (ssrc : String) (rest : String)
  | ssrcGroup (semantics : String) (ssrcs : List String)
  | otherLine (line : String)
deriving DecidableEq, Repr

/-- JavaScript `Set.prototype.add`: insertion order with duplicates
dropped. -/
def jsSetAdd (s : List String) (x : String) : List String :=
  if s.contains x then s else s ++ [x]

/-- `getPlanBTrackIds(sdp)` (part_001 lines 191-193): the capture set of
`^a=ssrc:[0-9]+ +msid:.+ +(.+) *$`. -/
def getPlanBTrackIds (sdp : List PlanBLine) : List String :=
  sdp.foldl
    (fun acc l =>
      match l with
      | PlanBLine.ssrcMsid _ _ trackId => jsSetAdd acc trackId
      | _ => acc) []

/-- `getPlanBSSRCs(sdp, trackId)` (part_001 lines 210-214): the capture
set of `^a=ssrc:([0-9]+) +msid:[^ ]+ +<trackId> *$`. -/
def getPlanBSSRCs (sdp : List PlanBLine) (trackId : String) :
    List String :=
  sdp.foldl
    (fun acc l =>
      match l with
      | PlanBLine.ssrcMsid ssrc _ tid =>
        if tid == trackId then jsSetAdd acc ssrc else acc
      | _ => acc) []

/-- `getPlanBTrackIdsToSSRCs(sdp)` (part_001 lines 270-281). -/
def getPlanBTrackIdsToSSRCs (sdp : List PlanBLine) :
    JsMap String (List String) :=
  (getPlanBTrackIds sdp).map
    (fun trackId => (trackId, getPlanBSSRCs sdp trackId))

/-- One `sdp.replace(new RegExp('^a=ssrc:<newSSRC> (.*)$', 'gm'), ...)`
step: every ssrc line carrying `newSSRC` is rewritten to carry
`oldSSRC`. -/
def replaceSsrcLines (newSSRC oldSSRC : String) (sdp : List PlanBLine) :
    List PlanBLine :=
  sdp.map (fun l =>
    match l with
    | PlanBLine.ssrcMsid ssrc msid trackId =>
      if ssrc == newSSRC then PlanBLine.ssrcMsid oldSSRC msid trackId
      else l
    | PlanBLine.ssrcAttr ssrc rest =>
      if ssrc == newSSRC then PlanBLine.ssrcAttr oldSSRC rest else l
    | _ => l)

/-- The `a=ssrc-group` rewrite phase of `updateTrackIdsToSSRCs`: group
members found in the new-to-old map are replaced by the recorded old
SSRC. -/
def rewriteGroupLines (newSSRCsToOldSSRCs : JsMap (Option String) String)
    (sdp : List PlanBLine) : List PlanBLine :=
  sdp.map (fun l =>
    match l with
    | PlanBLine.ssrcGroup semantics ssrcs =>
      PlanBLine.ssrcGroup semantics (ssrcs.map (fun s =>
        match newSSRCsToOldSSRCs.get? (some s) with
        | some oldSSRC => oldSSRC
        | none => s))
    | _ => l)

/-- `updateTrackIdsToSSRCs` (part_001 lines 301-353). The rewritten
`newSdp` is computed faithfully — including the slip that every iteration
of the inner `forEach` restarts from the original `sdp` (`newSdp =
sdp.replace(...)`), and that a missing `newSSRCs[i]` renders as the text
`undefined` in the pattern — and is then discarded: the function ends with
`return sdp`, so the caller receives the input SDP unchanged, and only the
cache gains entries for previously unknown tracks. -/
def updateTrackIdsToSSRCs
    (getTrackIdsToSSRCsFk : List PlanBLine → JsMap String (List String))
    (trackIdsToSSRCs : JsMap String (List String))
    (sdp : List PlanBLine) :
    JsMap String (List String) × List PlanBLine :=
  let newTrackIdsToSSRCs := getTrackIdsToSSRCsFk sdp
  let firstPhase :=
    newTrackIdsToSSRCs.foldl
      (fun (st : JsMap String (List String)
            × JsMap (Option String) String × List PlanBLine) entry =>
        let (cache, newSSRCsToOldSSRCs, newSdp) := st
        let (trackId, ssrcs) := entry
        if !(cache.has trackId) then
          (cache.set trackId ssrcs, newSSRCsToOldSSRCs, newSdp)
        else
          let oldSSRCs := match cache.get? trackId with
            | some l => l
            | none => []
          let newSSRCs := ssrcs
          (List.range oldSSRCs.length).foldl
            (fun (st2 : JsMap String (List String)
                  × JsMap (Option String) String × List PlanBLine) i =>
              let (cache2, m2, _newSdp2) := st2
              let oldSSRC := oldSSRCs.getD i ""
              let newSSRC := newSSRCs.get? i
              let m3 := m2.set newSSRC oldSSRC
              let rendered := match newSSRC with
                | some s => s
                | none => "undefined"
              (cache2, m3, replaceSsrcLines rendered oldSSRC sdp))
            (cache, newSSRCsToOldSSRCs, newSdp))
      (trackIdsToSSRCs, ([] : JsMap (Option String) String), sdp)
  let (cache, newSSRCsToOldSSRCs, newSdp) := firstPhase
  let _newSdp := rewriteGroupLines newSSRCsToOldSSRCs newSdp
  (cache, sdp)

/-- `updatePlanBTrackIdsToSSRCs` (part_001 lines 363-365). -/
def updatePlanBTrackIdsToSSRCs
    (trackIdsToSSRCs : JsMap String (List String))
    (sdp : List PlanBLine) :
    JsMap String (List String) × List PlanBLine :=
  updateTrackIdsToSSRCs getPlanBTrackIdsToSSRCs trackIdsToSSRCs sdp

/-- A cache announcing SSRC "1" for track `trackA`. -/
def c1Cache : JsMap String (List String) := [("trackA", ["1"])]

/-- An SDP announcing the regenerated SSRC "2" for the cached track
`trackA`. -/
def c1Sdp : List PlanBLine :=
  [PlanBLine.otherLine "v=0",
   PlanBLine.ssrcMsid "2" "streamA" "trackA",
   PlanBLine.ssrcGroup "FID" ["2", "9"]]

/-! ## Theorems -/

/-- C2: if the transport commit inside `setLocalDescription` fails, the call
rejects with the same error, emits the set-local-description-failed
notification, leaves the stored local ufrag unchanged and emits no
local-ufrag-changed event; if the commit succeeds, the call resolves, the
stored ufrag becomes the one extracted from the committed description, and
a local-ufrag-changed event is emitted iff that extracted ufrag differs
from the previously stored one. -/
theorem setLocalDescription_commit_spec (err : String)
    (committedUfrag storedUfrag : Option String) :
    (setLocalDescriptionCommit (Except.error err) committedUfrag storedUfrag).1
        = storedUfrag
    ∧ (setLocalDescriptionCommit (Except.error err) committedUfrag
          storedUfrag).2.1 = [SldEvent.setLocalDescriptionFailed err]
    ∧ (∀ u, SldEvent.localUfragChanged u ∉
          (setLocalDescriptionCommit (Except.error err) committedUfrag
            storedUfrag).2.1)
    ∧ (setLocalDescriptionCommit (Except.error err) committedUfrag
          storedUfrag).2.2 = Except.error err
    ∧ (setLocalDescriptionCommit (Except.ok ()) committedUfrag storedUfrag).1
        = committedUfrag
    ∧ (SldEvent.localUfragChanged committedUfrag ∈
          (setLocalDescriptionCommit (Except.ok ()) committedUfrag
            storedUfrag).2.1
        ↔ committedUfrag ≠ storedUfrag)
    ∧ (setLocalDescriptionCommit (Except.ok ()) committedUfrag
          storedUfrag).2.2 = Except.ok () := by
  refine ⟨rfl, rfl, ?_, rfl, ?_, ?_, ?_⟩
  · intro u h
    simp [setLocalDescriptionCommit] at h
  · by_cases h : committedUfrag = storedUfrag <;>
      simp [setLocalDescriptionCommit, h]
  · by_cases h : committedUfrag = storedUfrag <;>
      simp [setLocalDescriptionCommit, h]
  · by_cases h : committedUfrag = storedUfrag <;>
      simp [setLocalDescriptionCommit, h]

/-- C3: with simulcast enabled (and the screenshare-cap either off or
satisfied by a camera track) and RTX enabled, the generated SSRC info has
exactly 3 primary SSRCs followed by exactly 3 RTX SSRCs, exactly one
"SIM" group listing the 3 primaries in generation order, and exactly 3
"FID" groups each pairing a primary (first) with its RTX SSRC (second). -/
theorem generateNewStreamSSRCInfo_simulcast_rtx (options : TPCOptions)
    (b : BrowserCaps) (hasCamera : Bool) (gen : Nat → Nat) (msid : String)
    (rtcId : Nat) (localSSRCs : JsMap Nat TPCSSRCInfo)
    (hsim : isSimulcastOn options b = true)
    (hcap : options.capScreenshareBitrate = false ∨ hasCamera = true)
    (hrtx : options.disableRtx = false)
    (hsup : b.supportsRtx = true) :
    (generateNewStreamSSRCInfo options b hasCamera gen msid rtcId
        localSSRCs).1
      = { ssrcs := [gen 0, gen 1, gen 2, gen 3, gen 4, gen 5]
          groups := [{ semantics := "SIM", ssrcs := [gen 0, gen 1, gen 2] },
                     { semantics := "FID", ssrcs := [gen 0, gen 3] },
                     { semantics := "FID", ssrcs := [gen 1, gen 4] },
                     { semantics := "FID", ssrcs := [gen 2, gen 5] }]
          msid := msid } := by
  have hcap' : (!options.capScreenshareBitrate
      || (options.capScreenshareBitrate && hasCamera)) = true := by
    rcases hcap with h | h <;> simp [h]
  simp only [generateNewStreamSSRCInfo, hsim, hrtx, hsup, hcap',
    SIMULCAST_LAYERS]
  rfl

/-- Witness for C3 at a concrete configuration and generator stream. -/
theorem generateNewStreamSSRCInfo_simulcast_rtx_witness :
    (generateNewStreamSSRCInfo
        { disableSimulcast := false, disableRtx := false
          capScreenshareBitrate := false, enableFirefoxSimulcast := false
          startSilent := false }
        { supportsSimulcast := true, isFirefox := false, supportsRtx := true
          chromeGreaterThan70 := true }
        true (fun n => n + 10) "ms0" 7 []).1
      = { ssrcs := [10, 11, 12, 13, 14, 15]
          groups := [{ semantics := "SIM", ssrcs := [10, 11, 12] },
                     { semantics := "FID", ssrcs := [10, 13] },
                     { semantics := "FID", ssrcs := [11, 14] },
                     { semantics := "FID", ssrcs := [12, 15] }]
          msid := "ms0" } := by
  have h := generateNewStreamSSRCInfo_simulcast_rtx
    { disableSimulcast := false, disableRtx := false
      capScreenshareBitrate := false, enableFirefoxSimulcast := false
      startSilent := false }
    { supportsSimulcast := true, isFirefox := false, supportsRtx := true
      chromeGreaterThan70 := true }
    true (fun n => n + 10) "ms0" 7 [] (by decide) (Or.inl rfl) rfl rfl
  simpa using h

/-- C5 (failing-input evaluation): on a video section whose occupied payload
types are `{96, 97, 127}`, the injected H264 entry gets payload id 127 —
an id that is already occupied — instead of the highest unused value ≤ 127
(which would be 126): `payloadsArray` holds strings while the membership
test compares them against a number, so the test never rejects a candidate
and the descending search always stops at 127. -/
theorem injectH264IfNotPresent_payload_bug :
    ((injectH264IfNotPresent c5Desc).sdp.media.map
        (fun m => m.rtp.map (fun r => r.payload)))
      = [[96, 97, 127, 127]]
    ∧ ((injectH264IfNotPresent c5Desc).sdp.media.map (fun m => m.payloads))
      = ["96 97 127 127"]
    ∧ (c5Desc.sdp.media.map (fun m => m.payloads)) = ["96 97 127"] := by
  refine ⟨?_, ?_, rfl⟩ <;> rfl

/-- Replacing the first `p`-match by a `p`-element makes it the new first
`p`-match. -/
theorem find?_setFirstBy_same {α : Type} (p : α → Bool) (x a : α)
    (l : List α) (hx : p x = true) (h : l.find? p = some a) :
    (setFirstBy p x l).find? p = some x := by
  induction l with
  | nil => simp [List.find?] at h
  | cons b bs ih =>
    by_cases hb : p b = true
    · simp [setFirstBy, hb, hx]
    · rw [List.find?_cons_of_neg _ hb] at h
      have hstep : setFirstBy p x (b :: bs) = b :: setFirstBy p x bs := by
        simp [setFirstBy, hb]
      rw [hstep, List.find?_cons_of_neg _ hb, ih h]

/-- Replacing the first `p`-match by a `q`-free element leaves the first
`q`-match alone when `p`-elements are never `q`-elements. -/
theorem find?_setFirstBy_disjoint {α : Type} (p q : α → Bool) (x : α)
    (l : List α) (hpq : ∀ a, p a = true → q a = false)
    (hx : q x = false) :
    (setFirstBy p x l).find? q = l.find? q := by
  induction l with
  | nil => rfl
  | cons b bs ih =>
    by_cases hb : p b = true
    · have hstep : setFirstBy p x (b :: bs) = x :: bs := by
        simp [setFirstBy, hb]
      rw [hstep, List.find?_cons_of_neg _ (by simp [hx]),
        List.find?_cons_of_neg _ (by simp [hpq b hb])]
    · have hstep : setFirstBy p x (b :: bs) = b :: setFirstBy p x bs := by
        simp [setFirstBy, hb]
      rw [hstep]
      by_cases hq : q b = true
      · rw [List.find?_cons_of_pos _ hq, List.find?_cons_of_pos _ hq]
      · rw [List.find?_cons_of_neg _ hq, List.find?_cons_of_neg _ hq, ih]

/-- Replacing the first `p`-match by itself is the identity. -/
theorem setFirstBy_self {α : Type} (p : α → Bool) (a : α) (l : List α)
    (h : l.find? p = some a) : setFirstBy p a l = l := by
  induction l with
  | nil => rfl
  | cons b bs ih =>
    by_cases hb : p b = true
    · rw [List.find?_cons_of_pos _ hb] at h
      cases h
      simp [setFirstBy, hb]
    · rw [List.find?_cons_of_neg _ hb] at h
      have hstep : setFirstBy p a (b :: bs) = b :: setFirstBy p a bs := by
        simp [setFirstBy, hb]
      rw [hstep, ih h]

/-- An audio media section is not a video media section. -/
theorem isAudio_not_isVideo (m : MLine) (h : isAudioMLine m = true) :
    isVideoMLine m = false := by
  simp only [isAudioMLine, beq_iff_eq] at h
  simp [isVideoMLine, h]

/-- A video media section is not an audio media section. -/
theorem isVideo_not_isAudio (m : MLine) (h : isVideoMLine m = true) :
    isAudioMLine m = false := by
  simp only [isVideoMLine, beq_iff_eq] at h
  simp [isAudioMLine, h]

/-- C7 counterexample: with `options.startSilent` set, `enforceSendRecv`
rewrites a non-`sendrecv` audio section to `inactive`, not to `sendrecv`,
so the signalled audio direction is not always `sendrecv`. -/
theorem enforceSendRecv_startSilent_inactive :
    ((enforceSendRecv c7Desc c7Options).sdp.media.map (fun m => m.direction))
      = ["inactive"] := by
  rfl

/-- The audio section `enforceSendRecv` leaves behind: rewritten to
`sendrecv` (or `inactive` under `startSilent`) when it was not `sendrecv`,
untouched otherwise. -/
theorem enforceSendRecv_audio_find (d : RTCSessionDesc)
    (options : TPCOptions) (am : MLine)
    (hA : d.sdp.media.find? isAudioMLine = some am) :
    (enforceSendRecv d options).sdp.media.find? isAudioMLine
      = some (if am.direction != "sendrecv" then
          { am with direction :=
              if options.startSilent then "inactive" else "sendrecv" }
        else am) := by
  have ham : isAudioMLine am = true := List.find?_some hA
  by_cases had : (am.direction != "sendrecv") = true
  · set am' : MLine :=
      { am with direction :=
          if options.startSilent then "inactive" else "sendrecv" } with ham'
    have ham2 : isAudioMLine am' = true := ham
    cases hV : d.sdp.media.find? isVideoMLine with
    | none =>
      simp [enforceSendRecv, hA, hV, had, if_true, Bool.true_or]
      exact find?_setFirstBy_same _ _ _ _ ham2 hA
    | some vm =>
      have hvm : isVideoMLine vm = true := List.find?_some hV
      have hinner :
          (setFirstBy isAudioMLine am' d.sdp.media).find? isAudioMLine
            = some am' := find?_setFirstBy_same _ _ _ _ ham2 hA
      by_cases hvd : (vm.direction != "sendrecv") = true
      · simp [enforceSendRecv, hA, hV, had, hvd, if_true, Bool.true_or]
        exact Eq.trans
          (find?_setFirstBy_disjoint _ _ _ _
            (fun a ha => isVideo_not_isAudio a ha)
            (isVideo_not_isAudio _ hvm)) hinner
      · have hvd' : (vm.direction != "sendrecv") = false := by
          simpa using hvd
        simp [enforceSendRecv, hA, hV, had, hvd', if_true, if_false,
          Bool.true_or]
        exact Eq.trans
          (find?_setFirstBy_disjoint _ _ _ _
            (fun a ha => isVideo_not_isAudio a ha)
            (isVideo_not_isAudio _ hvm)) hinner
  · have had' : (am.direction != "sendrecv") = false := by
      simpa using had
    cases hV : d.sdp.media.find? isVideoMLine with
    | none =>
      simp [enforceSendRecv, hA, hV, had', if_false, Bool.false_or]
    | some vm =>
      have hvm : isVideoMLine vm = true := List.find?_some hV
      by_cases hvd : (vm.direction != "sendrecv") = true
      · simp [enforceSendRecv, hA, hV, had', hvd, if_false, if_true,
          Bool.false_or]
        rw [setFirstBy_self _ _ _ hA]
        exact Eq.trans
          (find?_setFirstBy_disjoint _ _ _ _
            (fun a ha => isVideo_not_isAudio a ha)
            (isVideo_not_isAudio _ hvm)) hA
      · have hvd' : (vm.direction != "sendrecv") = false := by
          simpa using hvd
        simp [enforceSendRecv, hA, hV, had', hvd', if_false,
          Bool.false_or]

/-- The video section `enforceSendRecv` leaves behind: rewritten to
`sendrecv` when it was not `sendrecv`, untouched otherwise. -/
theorem enforceSendRecv_video_find (d : RTCSessionDesc)
    (options : TPCOptions) (vm : MLine)
    (hV : d.sdp.media.find? isVideoMLine = some vm) :
    (enforceSendRecv d options).sdp.media.find? isVideoMLine
      = some (if vm.direction != "sendrecv" then
          { vm with direction := "sendrecv" } else vm) := by
  have hvm : isVideoMLine vm = true := List.find?_some hV
  by_cases hvd : (vm.direction != "sendrecv") = true
  · set vm' : MLine := { vm with direction := "sendrecv" } with hvm'
    have hvm2 : isVideoMLine vm' = true := hvm
    cases hA : d.sdp.media.find? isAudioMLine with
    | none =>
      simp [enforceSendRecv, hA, hV, hvd, if_true, Bool.or_true]
      exact find?_setFirstBy_same _ _ _ _ hvm2 hV
    | some am =>
      have ham : isAudioMLine am = true := List.find?_some hA
      by_cases had : (am.direction != "sendrecv") = true
      · simp [enforceSendRecv, hA, hV, hvd, had, if_true, Bool.true_or]
        exact find?_setFirstBy_same _ _ _ _ hvm2
          (Eq.trans
            (find?_setFirstBy_disjoint _ _ _ _
              (fun a ha => isAudio_not_isVideo a ha)
              (isAudio_not_isVideo _ ham)) hV)
      · have had' : (am.direction != "sendrecv") = false := by simpa using had
        simp [enforceSendRecv, hA, hV, hvd, had', if_true, if_false,
          Bool.or_true, Bool.false_or]
        rw [setFirstBy_self _ _ _ hA]
        exact find?_setFirstBy_same _ _ _ _ hvm2 hV
  · have hvd' : (vm.direction != "sendrecv") = false := by simpa using hvd
    cases hA : d.sdp.media.find? isAudioMLine with
    | none =>
      simp [enforceSendRecv, hA, hV, hvd', if_false, Bool.or_false]
    | some am =>
      by_cases had : (am.direction != "sendrecv") = true
      · have ham : isAudioMLine am = true := List.find?_some hA
        simp [enforceSendRecv, hA, hV, hvd', had, if_true, if_false,
          Bool.true_or]
        exact find?_setFirstBy_same _ _ _ _ hvm
          (Eq.trans
            (find?_setFirstBy_disjoint _ _ _ _
              (fun a ha => isAudio_not_isVideo a ha)
              (isAudio_not_isVideo _ ham)) hV)
      · have had' : (am.direction != "sendrecv") = false := by simpa using had
        simp [enforceSendRecv, hA, hV, hvd', had', if_false,
          Bool.or_false, Bool.false_or]

/-- C7 (amended): the result of `enforceSendRecv` has direction `sendrecv`
on its video section whenever one is present; the audio section likewise
becomes `sendrecv` whenever present provided `options.startSilent` is not
set; with `startSilent` set, an audio section that is not already
`sendrecv` is set to `inactive` instead. -/
theorem enforceSendRecv_directions (d : RTCSessionDesc)
    (options : TPCOptions) :
    (∀ vm, d.sdp.media.find? isVideoMLine = some vm →
      ∃ vm', (enforceSendRecv d options).sdp.media.find? isVideoMLine
          = some vm' ∧ vm'.direction = "sendrecv")
    ∧ (options.startSilent = false →
        ∀ am, d.sdp.media.find? isAudioMLine = some am →
          ∃ am', (enforceSendRecv d options).sdp.media.find? isAudioMLine
              = some am' ∧ am'.direction = "sendrecv")
    ∧ (options.startSilent = true →
        ∀ am, d.sdp.media.find? isAudioMLine = some am →
          am.direction ≠ "sendrecv" →
          ∃ am', (enforceSendRecv d options).sdp.media.find? isAudioMLine
              = some am' ∧ am'.direction = "inactive") := by
  refine ⟨?_, ?_, ?_⟩
  · intro vm hV
    refine ⟨_, enforceSendRecv_video_find d options vm hV, ?_⟩
    by_cases h : (vm.direction != "sendrecv") = true
    · simp [h]
    · have h' : vm.direction = "sendrecv" := by simpa using h
      simp [h, h']
  · intro hss am hA
    refine ⟨_, enforceSendRecv_audio_find d options am hA, ?_⟩
    by_cases h : (am.direction != "sendrecv") = true
    · simp [h, hss]
    · have h' : am.direction = "sendrecv" := by simpa using h
      simp [h, h']
  · intro hss am hA hne
    refine ⟨_, enforceSendRecv_audio_find d options am hA, ?_⟩
    have h : (am.direction != "sendrecv") = true := by simpa using hne
    simp [h, hss]

/-- Witness for the amended C7 statement at concrete inputs. -/
theorem enforceSendRecv_directions_witness :
    (∃ vm', (enforceSendRecv c7wDesc c7wOptions).sdp.media.find? isVideoMLine
        = some vm' ∧ vm'.direction = "sendrecv")
    ∧ (∃ am', (enforceSendRecv c7wDesc c7wOptions).sdp.media.find?
          isAudioMLine = some am' ∧ am'.direction = "sendrecv")
    ∧ (∃ am', (enforceSendRecv c7wDesc c7Options).sdp.media.find?
          isAudioMLine = some am' ∧ am'.direction = "inactive") := by
  refine ⟨(enforceSendRecv_directions c7wDesc c7wOptions).1 c7wVideo
      (by rfl),
    (enforceSendRecv_directions c7wDesc c7wOptions).2.1 rfl c7wAudio
      (by rfl),
    (enforceSendRecv_directions c7wDesc c7Options).2.2 rfl c7wAudio ?_
      (by decide)⟩
  rfl

/-- Updating a field to the value it already holds is the identity. -/
theorem mline_set_direction_self (m : MLine) (s : String)
    (h : m.direction = s) : ({ m with direction := s } : MLine) = m := by
  cases m
  simp_all

/-- `enforceSendRecv` does not create an audio section. -/
theorem enforceSendRecv_audio_none (d : RTCSessionDesc)
    (options : TPCOptions)
    (hA : d.sdp.media.find? isAudioMLine = none) :
    (enforceSendRecv d options).sdp.media.find? isAudioMLine = none := by
  cases hV : d.sdp.media.find? isVideoMLine with
  | none => simp [enforceSendRecv, hA, hV]
  | some vm =>
    have hvm : isVideoMLine vm = true := List.find?_some hV
    by_cases hvd : (vm.direction != "sendrecv") = true
    · have h2 : (setFirstBy isVideoMLine
          ({ vm with direction := "sendrecv" } : MLine)
          d.sdp.media).find? isAudioMLine = none :=
        Eq.trans
          (find?_setFirstBy_disjoint _ _ _ _
            (fun a ha => isVideo_not_isAudio a ha)
            (isVideo_not_isAudio _ hvm)) hA
      simp [enforceSendRecv, hA, hV, hvd]
      intro x hx
      simpa using List.find?_eq_none.mp h2 x hx
    · have hvd' : (vm.direction != "sendrecv") = false := by simpa using hvd
      simp [enforceSendRecv, hA, hV, hvd']

/-- `enforceSendRecv` does not create a video section. -/
theorem enforceSendRecv_video_none (d : RTCSessionDesc)
    (options : TPCOptions)
    (hV : d.sdp.media.find? isVideoMLine = none) :
    (enforceSendRecv d options).sdp.media.find? isVideoMLine = none := by
  cases hA : d.sdp.media.find? isAudioMLine with
  | none => simp [enforceSendRecv, hA, hV]
  | some am =>
    have ham : isAudioMLine am = true := List.find?_some hA
    by_cases had : (am.direction != "sendrecv") = true
    · have h2 : (setFirstBy isAudioMLine
          ({ am with direction :=
              if options.startSilent then "inactive" else "sendrecv" } :
            MLine)
          d.sdp.media).find? isVideoMLine = none :=
        Eq.trans
          (find?_setFirstBy_disjoint _ _ _ _
            (fun a ha => isAudio_not_isVideo a ha)
            (isAudio_not_isVideo _ ham)) hV
      simp [enforceSendRecv, hA, hV, had]
      intro x hx
      simpa using List.find?_eq_none.mp h2 x hx
    · have had' : (am.direction != "sendrecv") = false := by simpa using had
      simp [enforceSendRecv, hA, hV, had']

/-- The output of `enforceSendRecv` is settled. -/
theorem enforceSendRecv_settled (d : RTCSessionDesc)
    (options : TPCOptions) :
    enforceSettled options (enforceSendRecv d options).sdp.media := by
  constructor
  · intro am hr
    cases hA : d.sdp.media.find? isAudioMLine with
    | none =>
      rw [enforceSendRecv_audio_none d options hA] at hr
      cases hr
    | some am0 =>
      rw [enforceSendRecv_audio_find d options am0 hA] at hr
      cases hr
      by_cases h : (am0.direction != "sendrecv") = true
      · by_cases hss : options.startSilent = true
        · right
          simp [h, hss]
        · left
          have hss' : options.startSilent = false := by
            simpa using hss
          simp [h, hss']
      · left
        have h' : am0.direction = "sendrecv" := by simpa using h
        simp [h, h']
  · intro vm hr
    cases hV : d.sdp.media.find? isVideoMLine with
    | none =>
      rw [enforceSendRecv_video_none d options hV] at hr
      cases hr
    | some vm0 =>
      rw [enforceSendRecv_video_find d options vm0 hV] at hr
      cases hr
      by_cases h : (vm0.direction != "sendrecv") = true
      · simp [h]
      · have h' : vm0.direction = "sendrecv" := by simpa using h
        simp [h, h']

/-- `enforceSendRecv` fixes every settled description. -/
theorem enforceSendRecv_fixed (d : RTCSessionDesc) (options : TPCOptions)
    (hs : enforceSettled options d.sdp.media) :
    enforceSendRecv d options = d := by
  obtain ⟨hsa, hsv⟩ := hs
  cases hA : d.sdp.media.find? isAudioMLine with
  | none =>
    cases hV : d.sdp.media.find? isVideoMLine with
    | none => simp [enforceSendRecv, hA, hV]
    | some vm =>
      have hvd : vm.direction = "sendrecv" := hsv vm hV
      have hvd' : (vm.direction != "sendrecv") = false := by simp [hvd]
      simp [enforceSendRecv, hA, hV, hvd']
  | some am =>
    rcases hsa am hA with had | ⟨hss, had⟩
    · have had' : (am.direction != "sendrecv") = false := by simp [had]
      cases hV : d.sdp.media.find? isVideoMLine with
      | none => simp [enforceSendRecv, hA, hV, had']
      | some vm =>
        have hvd : vm.direction = "sendrecv" := hsv vm hV
        have hvd' : (vm.direction != "sendrecv") = false := by simp [hvd]
        simp [enforceSendRecv, hA, hV, had', hvd']
    · have had2 : (am.direction != "sendrecv") = true := by simp [had]
      have hrec : ({ am with direction :=
          if options.startSilent then "inactive" else "sendrecv" } : MLine)
            = am := by
        rw [hss]
        exact mline_set_direction_self am "inactive" had
      cases hV : d.sdp.media.find? isVideoMLine with
      | none =>
        simp [enforceSendRecv, hA, hV, had2, hrec]
        rw [setFirstBy_self _ _ _ hA]
      | some vm =>
        have hvd : vm.direction = "sendrecv" := hsv vm hV
        have hvd' : (vm.direction != "sendrecv") = false := by simp [hvd]
        simp [enforceSendRecv, hA, hV, had2, hvd', hrec]
        rw [setFirstBy_self _ _ _ hA, setFirstBy_self _ _ _ hV]

/-- Unfolding `firstIdx` on a cons cell. -/
theorem firstIdx_cons {α : Type} (p : α → Bool) (a : α) (l : List α) :
    firstIdx p (a :: l)
      = if p a then some 0 else (firstIdx p l).map (fun i => i + 1) := rfl

/-- Unfolding `lastIdx` on a cons cell. -/
theorem lastIdx_cons {α : Type} (p : α → Bool) (a : α) (l : List α) :
    lastIdx p (a :: l)
      = match lastIdx p l with
        | some i => some (i + 1)
        | none => if p a then some 0 else none := rfl

/-- Unfolding `removeFirstEq` on a cons cell. -/
theorem removeFirstEq_cons (t a : String) (ls : List String) :
    removeFirstEq t (a :: ls)
      = if a == t then ls else a :: removeFirstEq t ls := rfl

/-- `firstIdx` skips a prefix on which the predicate fails. -/
theorem firstIdx_append_false {α : Type} (p : α → Bool) :
    ∀ (X Y : List α), (∀ l ∈ X, p l = false) →
      firstIdx p (X ++ Y) = (firstIdx p Y).map (fun i => i + X.length)
  | [], Y, _ => by
    cases h : firstIdx p Y <;> simp [h]
  | a :: X, Y, hX => by
    have ha : p a = false := hX a (by simp)
    have ih := firstIdx_append_false p X Y (fun l hl => hX l (by simp [hl]))
    rw [List.cons_append, firstIdx_cons, if_neg (by simp [ha]), ih]
    cases h : firstIdx p Y with
    | none => simp [h]
    | some i => simp [h, Nat.add_assoc]

/-- `firstIdx` at a satisfied head. -/
theorem firstIdx_cons_true {α : Type} (p : α → Bool) (a : α) (l : List α)
    (h : p a = true) : firstIdx p (a :: l) = some 0 := by
  simp [firstIdx, h]

/-- `firstIdx` past an unsatisfied head. -/
theorem firstIdx_cons_false {α : Type} (p : α → Bool) (a : α) (l : List α)
    (h : p a = false) :
    firstIdx p (a :: l) = (firstIdx p l).map (fun i => i + 1) := by
  simp [firstIdx, h]

/-- `lastIdx` over an append. -/
theorem lastIdx_append {α : Type} (p : α → Bool) :
    ∀ (X Y : List α),
      lastIdx p (X ++ Y)
        = match lastIdx p Y with
          | some i => some (i + X.length)
          | none => lastIdx p X
  | [], Y => by
    cases h : lastIdx p Y <;> simp [h, lastIdx]
  | a :: X, Y => by
    have ih := lastIdx_append p X Y
    rw [List.cons_append, lastIdx_cons, ih]
    cases h : lastIdx p Y with
    | none => rw [lastIdx_cons]
    | some i => simp [Nat.add_assoc]

/-- `lastIdx` is `none` exactly on predicate-free lists. -/
theorem lastIdx_eq_none_iff {α : Type} (p : α → Bool) :
    ∀ (l : List α), lastIdx p l = none ↔ ∀ x ∈ l, p x = false
  | [] => by simp [lastIdx]
  | a :: l => by
    rw [lastIdx]
    cases h : lastIdx p l with
    | some i =>
      simp only []
      constructor
      · intro hfalse
        cases hfalse
      · intro hall
        have := (lastIdx_eq_none_iff p l).mpr
          (fun x hx => hall x (by simp [hx]))
        rw [h] at this
        cases this
    | none =>
      have hl := (lastIdx_eq_none_iff p l).mp h
      by_cases ha : p a = true
      · simp [ha]
      · have ha' : p a = false := by simpa using ha
        simp [ha', hl]
        intro x hx
        exact hl x hx

/-- A `lastIdx` hit decomposes the list: everything after it fails the
predicate. -/
theorem lastIdx_decomp {α : Type} (p : α → Bool) :
    ∀ (l : List α) (k : Nat), lastIdx p l = some k →
      ∃ L1 g L2, l = L1 ++ g :: L2 ∧ L1.length = k ∧ p g = true
        ∧ ∀ x ∈ L2, p x = false
  | [], k, h => by cases h
  | a :: l, k, h => by
    rw [lastIdx] at h
    cases hl : lastIdx p l with
    | some i =>
      rw [hl] at h
      cases h
      obtain ⟨L1, g, L2, hdec, hlen, hg, hL2⟩ := lastIdx_decomp p l i hl
      exact ⟨a :: L1, g, L2, by simp [hdec], by simp [hlen], hg, hL2⟩
    | none =>
      rw [hl] at h
      by_cases ha : p a = true
      · rw [if_pos ha] at h
        cases h
        exact ⟨[], a, l, rfl, rfl, ha,
          (lastIdx_eq_none_iff p l).mp hl⟩
      · rw [if_neg ha] at h
        cases h

/-- Removing the first occurrence of `t` from `X ++ t :: Z` when `X` avoids
`t`. -/
theorem removeFirstEq_append (t : String) :
    ∀ (X Z : List String), (∀ l ∈ X, l ≠ t) →
      removeFirstEq t (X ++ t :: Z) = X ++ Z
  | [], Z, _ => by simp [removeFirstEq]
  | a :: X, Z, hX => by
    have ha : (a == t) = false := by
      have := hX a (by simp)
      simpa using this
    have ih := removeFirstEq_append t X Z (fun l hl => hX l (by simp [hl]))
    rw [List.cons_append, removeFirstEq_cons, if_neg (by simp [ha]), ih,
      List.cons_append]

/-- `take` past an appended prefix. -/
theorem take_append_len {α : Type} :
    ∀ (X Z : List α) (n : Nat), (X ++ Z).take (X.length + n) = X ++ Z.take n
  | [], Z, n => by simp
  | a :: X, Z, n => by
    have ih := take_append_len X Z n
    simp only [List.cons_append, List.length_cons]
    rw [show X.length + 1 + n = (X.length + n) + 1 by omega]
    simp [List.take_succ_cons, ih]

/-- `drop` past an appended prefix. -/
theorem drop_append_len {α : Type} :
    ∀ (X Z : List α) (n : Nat), (X ++ Z).drop (X.length + n) = Z.drop n
  | [], Z, n => by simp
  | a :: X, Z, n => by
    have ih := drop_append_len X Z n
    simp only [List.cons_append, List.length_cons]
    rw [show X.length + 1 + n = (X.length + n) + 1 by omega]
    simp [List.drop_succ_cons, ih]

/-- `getD` past an appended prefix. -/
theorem getD_append_len {α : Type} (d : α) :
    ∀ (X Z : List α) (n : Nat), (X ++ Z).getD (X.length + n) d = Z.getD n d
  | [], Z, n => by simp
  | a :: X, Z, n => by
    have ih := getD_append_len d X Z n
    simp only [List.cons_append, List.length_cons]
    rw [show X.length + 1 + n = (X.length + n) + 1 by omega]
    simpa using ih

/-- C4 (amended): on a description whose video media section holds the
unique `a=ssrc-group:SIM` line together with at least one other
`a=ssrc-group` line, and in which no ssrc-group lines occur after the video
media section, the splice returns the same lines with only the SIM line
moved: it ends strictly after every other ssrc-group line of its media
section and is the last ssrc-group line in that section. -/
theorem ensureSimulcastGroupIsLast_spec
    (A S1 S2 B : List String) (v sim : String)
    (hv : hasVideoMarker v = true)
    (hA : ∀ l ∈ A, hasVideoMarker l = false)
    (hAsim : ∀ l ∈ A, isSimGroupLine l = false)
    (hvsim : isSimGroupLine v = false)
    (hS1sim : ∀ l ∈ S1, isSimGroupLine l = false)
    (hsim : isSimGroupLine sim = true)
    (hsimg : isSsrcGroupLine sim = true)
    (hS1m : ∀ l ∈ S1, strStartsWith l ("m=") = false)
    (hS2m : ∀ l ∈ S2, strStartsWith l ("m=") = false)
    (hB : ∀ l ∈ B, isSsrcGroupLine l = false)
    (hother : ∃ l ∈ A ++ S1 ++ S2, isSsrcGroupLine l = true) :
    ∃ T1 T2,
      ensureSimulcastGroupIsLast (A ++ (v :: (S1 ++ (sim :: (S2 ++ B)))))
        = A ++ (v :: (T1 ++ (sim :: (T2 ++ B))))
      ∧ T1 ++ T2 = S1 ++ S2
      ∧ ∀ l ∈ T2, isSsrcGroupLine l = false := by
  have hfv : firstIdx hasVideoMarker
      (A ++ (v :: (S1 ++ (sim :: (S2 ++ B))))) = some A.length := by
    rw [firstIdx_append_false hasVideoMarker A _ hA,
      firstIdx_cons_true _ _ _ hv]
    simp
  have hdrop0 : (A ++ (v :: (S1 ++ (sim :: (S2 ++ B))))).drop A.length
      = v :: (S1 ++ (sim :: (S2 ++ B))) := by
    have h := drop_append_len A (v :: (S1 ++ (sim :: (S2 ++ B)))) 0
    simpa using h
  have hsimf : firstIdx isSimGroupLine (v :: (S1 ++ (sim :: (S2 ++ B))))
      = some (S1.length + 1) := by
    rw [firstIdx_cons_false _ _ _ hvsim,
      firstIdx_append_false isSimGroupLine S1 _ hS1sim,
      firstIdx_cons_true _ _ _ hsim]
    simp
  have hlB : lastIdx isSsrcGroupLine B = none :=
    (lastIdx_eq_none_iff isSsrcGroupLine B).mpr hB
  have hl23 : lastIdx isSsrcGroupLine (S2 ++ B)
      = lastIdx isSsrcGroupLine S2 := by
    rw [lastIdx_append isSsrcGroupLine S2 B, hlB]
  cases hc : lastIdx isSsrcGroupLine S2 with
  | none =>
    have hl2 : lastIdx isSsrcGroupLine (sim :: (S2 ++ B)) = some 0 := by
      rw [lastIdx_cons, hl23, hc]
      simp [hsimg]
    have hl3 : lastIdx isSsrcGroupLine (S1 ++ (sim :: (S2 ++ B)))
        = some S1.length := by
      have h := lastIdx_append isSsrcGroupLine S1 (sim :: (S2 ++ B))
      rw [hl2] at h
      simpa using h
    have hl4 : lastIdx isSsrcGroupLine (v :: (S1 ++ (sim :: (S2 ++ B))))
        = some (S1.length + 1) := by
      rw [lastIdx_cons, hl3]
    have hl5 : lastIdx isSsrcGroupLine
        (A ++ (v :: (S1 ++ (sim :: (S2 ++ B)))))
        = some (S1.length + 1 + A.length) := by
      have h := lastIdx_append isSsrcGroupLine A
        (v :: (S1 ++ (sim :: (S2 ++ B))))
      rw [hl4] at h
      simpa using h
    refine ⟨S1, S2, ?_, rfl, (lastIdx_eq_none_iff isSsrcGroupLine S2).mp hc⟩
    simp only [ensureSimulcastGroupIsLast, hfv, hdrop0, hsimf, hl5,
      Option.map_some']
    simp
  | some k =>
    have hl1 : lastIdx isSsrcGroupLine (S2 ++ B) = some k := by
      rw [hl23, hc]
    have hl2 : lastIdx isSsrcGroupLine (sim :: (S2 ++ B))
        = some (k + 1) := by
      rw [lastIdx_cons, hl1]
    have hl3 : lastIdx isSsrcGroupLine (S1 ++ (sim :: (S2 ++ B)))
        = some (k + 1 + S1.length) := by
      have h := lastIdx_append isSsrcGroupLine S1 (sim :: (S2 ++ B))
      rw [hl2] at h
      simpa using h
    have hl4 : lastIdx isSsrcGroupLine (v :: (S1 ++ (sim :: (S2 ++ B))))
        = some (k + 1 + S1.length + 1) := by
      rw [lastIdx_cons, hl3]
    have hl5 : lastIdx isSsrcGroupLine
        (A ++ (v :: (S1 ++ (sim :: (S2 ++ B)))))
        = some (k + 1 + S1.length + 1 + A.length) := by
      have h := lastIdx_append isSsrcGroupLine A
        (v :: (S1 ++ (sim :: (S2 ++ B))))
      rw [hl4] at h
      simpa using h
    have hne : ((k + 1 + S1.length + 1 + A.length)
        == (S1.length + 1 + A.length)) = false := by
      rw [beq_eq_false_iff_ne]
      omega
    have hget : (A ++ (v :: (S1 ++ (sim :: (S2 ++ B))))).getD
        (S1.length + 1 + A.length) "" = sim := by
      rw [show S1.length + 1 + A.length = A.length + (S1.length + 1) by
          omega,
        getD_append_len, List.getD_cons_succ]
      have h := getD_append_len "" S1 (sim :: (S2 ++ B)) 0
      simpa using h
    have hrm : removeFirstEq sim (A ++ (v :: (S1 ++ (sim :: (S2 ++ B)))))
        = A ++ (v :: (S1 ++ (S2 ++ B))) := by
      have hx : ∀ l ∈ A ++ (v :: S1), l ≠ sim := by
        intro l hl he
        rcases List.mem_append.mp hl with h1 | h1
        · have := hAsim l h1
          rw [he, hsim] at this
          cases this
        · rcases List.mem_cons.mp h1 with h2 | h2
          · rw [h2] at he
            rw [he, hsim] at hvsim
            cases hvsim
          · have := hS1sim l h2
            rw [he, hsim] at this
            cases this
      have h := removeFirstEq_append sim (A ++ (v :: S1)) (S2 ++ B) hx
      simpa [List.append_assoc] using h
    obtain ⟨L1, g0, L2, hdec, hlen, hg0, hL2⟩ :=
      lastIdx_decomp isSsrcGroupLine S2 k hc
    have hj1 : lastIdx isSsrcGroupLine (S1 ++ (S2 ++ B))
        = some (k + S1.length) := by
      have h := lastIdx_append isSsrcGroupLine S1 (S2 ++ B)
      rw [hl1] at h
      simpa using h
    have hj2 : lastIdx isSsrcGroupLine (v :: (S1 ++ (S2 ++ B)))
        = some (k + S1.length + 1) := by
      rw [lastIdx_cons, hj1]
    have hj3 : lastIdx isSsrcGroupLine (A ++ (v :: (S1 ++ (S2 ++ B))))
        = some (k + S1.length + 1 + A.length) := by
      have h := lastIdx_append isSsrcGroupLine A (v :: (S1 ++ (S2 ++ B)))
      rw [hj2] at h
      simpa using h
    have htk : (S2 ++ B).take (k + 1) = L1 ++ [g0] := by
      rw [hdec, show (L1 ++ g0 :: L2) ++ B = L1 ++ (g0 :: (L2 ++ B)) by
        simp [List.append_assoc]]
      have h := take_append_len L1 (g0 :: (L2 ++ B)) 1
      rw [hlen] at h
      simpa using h
    have hdk : (S2 ++ B).drop (k + 1) = L2 ++ B := by
      rw [hdec, show (L1 ++ g0 :: L2) ++ B = L1 ++ (g0 :: (L2 ++ B)) by
        simp [List.append_assoc]]
      have h := drop_append_len L1 (g0 :: (L2 ++ B)) 1
      rw [hlen] at h
      simpa using h
    have hlen2 : (A ++ (v :: S1)).length + (k + 1)
        = k + S1.length + 1 + A.length + 1 := by
      simp [List.length_append]
      omega
    have htake : (A ++ (v :: (S1 ++ (S2 ++ B)))).take
        (k + S1.length + 1 + A.length + 1)
        = A ++ (v :: (S1 ++ (L1 ++ [g0]))) := by
      have h := take_append_len (A ++ (v :: S1)) (S2 ++ B) (k + 1)
      rw [hlen2, htk] at h
      have hsh : (A ++ (v :: S1)) ++ (S2 ++ B)
          = A ++ (v :: (S1 ++ (S2 ++ B))) := by
        simp [List.append_assoc]
      rw [hsh] at h
      rw [h]
      simp [List.append_assoc]
    have hdrop2 : (A ++ (v :: (S1 ++ (S2 ++ B)))).drop
        (k + S1.length + 1 + A.length + 1) = L2 ++ B := by
      have h := drop_append_len (A ++ (v :: S1)) (S2 ++ B) (k + 1)
      rw [hlen2, hdk] at h
      have hsh : (A ++ (v :: S1)) ++ (S2 ++ B)
          = A ++ (v :: (S1 ++ (S2 ++ B))) := by
        simp [List.append_assoc]
      rw [hsh] at h
      exact h
    refine ⟨S1 ++ (L1 ++ [g0]), L2, ?_, ?_, hL2⟩
    · simp only [ensureSimulcastGroupIsLast, hfv, hdrop0, hsimf, hl5,
        Option.map_some']
      simp only [hne, Bool.false_eq_true, if_false, hget, hrm, hj3,
        Option.getD_some]
      rw [htake, hdrop2]
      simp [List.append_assoc]
    · rw [hdec]
      simp [List.append_assoc]

/-- C4 counterexample: on `c4Sdp` the splice moves the SIM line after the
last ssrc-group line of the whole description, which lies in the following
audio section — the SIM line (now at index 4) ends up after the `m=audio`
boundary (index 2), outside the video media section that announced it, so
it is not the last ssrc-group line of its own media section. -/
theorem ensureSimulcastGroupIsLast_leaves_section :
    ensureSimulcastGroupIsLast c4Sdp
      = ["m=video 9", "a=ssrc-group:FID 1 2", "m=audio 0",
         "a=ssrc-group:FID 7 8", "a=ssrc-group:SIM 1 3 5"]
    ∧ firstIdx isSimGroupLine (ensureSimulcastGroupIsLast c4Sdp) = some 4
    ∧ firstIdx (fun l => strStartsWith l ("m=audio"))
        (ensureSimulcastGroupIsLast c4Sdp) = some 2
    ∧ firstIdx isSimGroupLine c4Sdp = some 2
    ∧ firstIdx (fun l => strStartsWith l ("m=audio")) c4Sdp = some 3 := by
  refine ⟨rfl, rfl, rfl, rfl, rfl⟩

/-- Witness for the amended C4 statement at a concrete description. -/
theorem ensureSimulcastGroupIsLast_spec_witness :
    ∃ T1 T2,
      ensureSimulcastGroupIsLast
          ([] ++ ("m=video 9" :: (["a=ssrc-group:FID 1 2"]
            ++ ("a=ssrc-group:SIM 1 3 5"
              :: (["a=ssrc-group:FID 3 4"] ++ ["m=audio 0"])))))
        = [] ++ ("m=video 9" :: (T1 ++ ("a=ssrc-group:SIM 1 3 5"
            :: (T2 ++ ["m=audio 0"]))))
      ∧ T1 ++ T2 = ["a=ssrc-group:FID 1 2"] ++ ["a=ssrc-group:FID 3 4"]
      ∧ ∀ l ∈ T2, isSsrcGroupLine l = false := by
  exact ensureSimulcastGroupIsLast_spec [] ["a=ssrc-group:FID 1 2"]
    ["a=ssrc-group:FID 3 4"] ["m=audio 0"] "m=video 9"
    "a=ssrc-group:SIM 1 3 5" rfl (by simp) (by simp) rfl
    (by decide) rfl rfl (by decide) (by decide) (by decide) (by decide)

/-- C8: each structural rewrite step leaves already-transformed input
unchanged — `enforceSendRecv` is idempotent; the unified-simulcast group
injection returns a description already carrying a "SIM" ssrc-group
unchanged; the H264 injection returns a description already carrying the
fallback codec unchanged; the simulcast-ordering splice returns a
description whose SIM group line is already the last ssrc-group line
unchanged. -/
theorem rewrite_steps_idempotent (d1 : RTCSessionDesc)
    (options : TPCOptions) (d2 : RTCSessionDesc) (v2 : MLine)
    (h2v : d2.sdp.media.find? isVideoMLine = some v2)
    (h2sim : (v2.ssrcGroups.find?
        (fun g => g.semantics == "SIM")).isSome = true)
    (d3 : RTCSessionDesc) (v3 : MLine)
    (h3v : d3.sdp.media.find? isVideoMLine = some v3)
    (h3codec : v3.rtp.any (fun r => toLowerAscii r.codec == "h264") = true)
    (A M Y : List String) (v sim : String)
    (hv : hasVideoMarker v = true)
    (hA : ∀ l ∈ A, hasVideoMarker l = false)
    (hAsim : ∀ l ∈ A, isSimGroupLine l = false)
    (hvsim : isSimGroupLine v = false)
    (hMsim : ∀ l ∈ M, isSimGroupLine l = false)
    (hsim : isSimGroupLine sim = true)
    (hsimg : isSsrcGroupLine sim = true)
    (hY : ∀ l ∈ Y, isSsrcGroupLine l = false) :
    enforceSendRecv (enforceSendRecv d1 options) options
      = enforceSendRecv d1 options
    ∧ injectSsrcGroupForUnifiedSimulcast d2 = some d2
    ∧ injectH264IfNotPresent d3 = d3
    ∧ ensureSimulcastGroupIsLast (A ++ (v :: (M ++ (sim :: Y))))
      = A ++ (v :: (M ++ (sim :: Y))) := by
  refine ⟨?_, ?_, ?_, ?_⟩
  · exact enforceSendRecv_fixed _ options
      (enforceSendRecv_settled d1 options)
  · cases hflag : v2.simulcast03 <;>
      simp [injectSsrcGroupForUnifiedSimulcast, h2v, hflag, h2sim]
  · simp [injectH264IfNotPresent, h3v, h3codec]
  · have hfv : firstIdx hasVideoMarker (A ++ (v :: (M ++ (sim :: Y))))
        = some A.length := by
      rw [firstIdx_append_false hasVideoMarker A _ hA,
        firstIdx_cons_true _ _ _ hv]
      simp
    have hdrop0 : (A ++ (v :: (M ++ (sim :: Y)))).drop A.length
        = v :: (M ++ (sim :: Y)) := by
      have h := drop_append_len A (v :: (M ++ (sim :: Y))) 0
      simpa using h
    have hsimf : firstIdx isSimGroupLine (v :: (M ++ (sim :: Y)))
        = some (M.length + 1) := by
      rw [firstIdx_cons_false _ _ _ hvsim,
        firstIdx_append_false isSimGroupLine M _ hMsim,
        firstIdx_cons_true _ _ _ hsim]
      simp
    have hlY : lastIdx isSsrcGroupLine Y = none :=
      (lastIdx_eq_none_iff isSsrcGroupLine Y).mpr hY
    have hl2 : lastIdx isSsrcGroupLine (sim :: Y) = some 0 := by
      rw [lastIdx_cons, hlY]
      simp [hsimg]
    have hl3 : lastIdx isSsrcGroupLine (M ++ (sim :: Y))
        = some M.length := by
      have h := lastIdx_append isSsrcGroupLine M (sim :: Y)
      rw [hl2] at h
      simpa using h
    have hl4 : lastIdx isSsrcGroupLine (v :: (M ++ (sim :: Y)))
        = some (M.length + 1) := by
      rw [lastIdx_cons, hl3]
    have hl5 : lastIdx isSsrcGroupLine (A ++ (v :: (M ++ (sim :: Y))))
        = some (M.length + 1 + A.length) := by
      have h := lastIdx_append isSsrcGroupLine A (v :: (M ++ (sim :: Y)))
      rw [hl4] at h
      simpa using h
    simp only [ensureSimulcastGroupIsLast, hfv, hdrop0, hsimf, hl5,
      Option.map_some']
    simp

/-- Witness for C8 at concrete descriptions. -/
theorem rewrite_steps_idempotent_witness :
    enforceSendRecv (enforceSendRecv c7Desc c7wOptions) c7wOptions
      = enforceSendRecv c7Desc c7wOptions
    ∧ injectSsrcGroupForUnifiedSimulcast c8SimDesc = some c8SimDesc
    ∧ injectH264IfNotPresent c8H264Desc = c8H264Desc
    ∧ ensureSimulcastGroupIsLast
        ([] ++ ("m=video 9" :: (["a=ssrc-group:FID 1 2"]
          ++ ("a=ssrc-group:SIM 1 3 5" :: ["c=IN IP4 0.0.0.0"]))))
      = [] ++ ("m=video 9" :: (["a=ssrc-group:FID 1 2"]
          ++ ("a=ssrc-group:SIM 1 3 5" :: ["c=IN IP4 0.0.0.0"]))) := by
  exact rewrite_steps_idempotent c7Desc c7wOptions c8SimDesc c8SimVideo
    rfl rfl c8H264Desc c8H264Video rfl rfl
    [] ["a=ssrc-group:FID 1 2"] ["c=IN IP4 0.0.0.0"]
    "m=video 9" "a=ssrc-group:SIM 1 3 5"
    rfl (by decide) (by decide) rfl (by decide) rfl rfl (by decide)

/-- `set` stores the value at its key. -/
theorem jsMap_get?_set_self {α β : Type} [BEq α] [LawfulBEq α] :
    ∀ (m : JsMap α β) (k : α) (v : β), (m.set k v).get? k = some v
  | [], k, v => by simp [JsMap.set, JsMap.get?]
  | (a, b) :: m, k, v => by
    by_cases hp : (a == k) = true
    · simp [JsMap.set, hp, JsMap.get?]
    · have hp' : (a == k) = false := by simpa using hp
      have hset : JsMap.set ((a, b) :: m) k v = (a, b) :: JsMap.set m k v :=
        by simp [JsMap.set, hp']
      have ih := jsMap_get?_set_self m k v
      rw [hset]
      simp only [JsMap.get?, List.find?_cons] at ih ⊢
      simp [hp', ih]

/-- `set` leaves other keys alone. -/
theorem jsMap_get?_set_other {α β : Type} [BEq α] [LawfulBEq α]
    (hk : α) :
    ∀ (m : JsMap α β) (k : α) (v : β), hk ≠ k →
      (m.set k v).get? hk = m.get? hk
  | [], k, v, hne => by
    have : (k == hk) = false := by
      rw [beq_eq_false_iff_ne]
      exact fun h => hne h.symm
    simp [JsMap.set, JsMap.get?, this]
  | (a, b) :: m, k, v, hne => by
    have hkk : (k == hk) = false := by
      rw [beq_eq_false_iff_ne]
      exact fun h => hne h.symm
    by_cases hp : (a == k) = true
    · have ha : a = k := by simpa using hp
      simp [JsMap.set, hp, JsMap.get?, hkk, ha]
    · have hp' : (a == k) = false := by simpa using hp
      have ih := jsMap_get?_set_other hk m k v hne
      by_cases hah : (a == hk) = true
      · simp [JsMap.set, hp', JsMap.get?, hah]
      · have hah' : (a == hk) = false := by simpa using hah
        simp only [JsMap.set, hp', if_false]
        simp only [JsMap.get?, List.find?_cons, hah'] at ih ⊢
        simpa [hah'] using ih

/-- Members of `set` come from the map or are the new entry. -/
theorem jsMap_mem_set {α β : Type} [BEq α] [LawfulBEq α] :
    ∀ (m : JsMap α β) (k : α) (v : β) (p : α × β),
      p ∈ m.set k v → p ∈ m ∨ p = (k, v)
  | [], k, v, p, hp => by
    simp [JsMap.set] at hp
    exact Or.inr hp
  | (a, b) :: m, k, v, p, hp => by
    by_cases h : (a == k) = true
    · simp only [JsMap.set, h, if_true] at hp
      rcases List.mem_cons.mp hp with h1 | h1
      · exact Or.inr h1
      · exact Or.inl (List.mem_cons.mpr (Or.inr h1))
    · have h' : (a == k) = false := by simpa using h
      simp only [JsMap.set, h', if_false] at hp
      rcases List.mem_cons.mp hp with h1 | h1
      · exact Or.inl (List.mem_cons.mpr (Or.inl h1))
      · rcases jsMap_mem_set m k v p h1 with h2 | h2
        · exact Or.inl (List.mem_cons.mpr (Or.inr h2))
        · exact Or.inr h2

/-- Keys of `set` come from the map keys or are the new key. -/
theorem jsMap_mem_keys_set {α β : Type} [BEq α] [LawfulBEq α]
    (m : JsMap α β) (k : α) (v : β) (x : α)
    (hx : x ∈ (m.set k v).map (fun p => p.1)) :
    x ∈ m.map (fun p => p.1) ∨ x = k := by
  rcases List.mem_map.mp hx with ⟨p, hp, hpx⟩
  rcases jsMap_mem_set m k v p hp with h | h
  · exact Or.inl (List.mem_map.mpr ⟨p, h, hpx⟩)
  · rw [h] at hpx
    exact Or.inr hpx.symm

/-- `set` preserves duplicate-free keys. -/
theorem jsMap_set_keys_nodup {α β : Type} [BEq α] [LawfulBEq α] :
    ∀ (m : JsMap α β) (k : α) (v : β),
      (m.map (fun p => p.1)).Nodup → ((m.set k v).map (fun p => p.1)).Nodup
  | [], k, v, _ => by simp [JsMap.set]
  | (a, b) :: m, k, v, h => by
    rw [List.map_cons, List.nodup_cons] at h
    obtain ⟨hna, hm⟩ := h
    by_cases hp : (a == k) = true
    · have ha : a = k := by simpa using hp
      have hset : JsMap.set ((a, b) :: m) k v = (k, v) :: m := by
        simp [JsMap.set, hp]
      rw [hset, List.map_cons, List.nodup_cons]
      exact ⟨by rw [← ha]; exact hna, hm⟩
    · have hp' : (a == k) = false := by simpa using hp
      have hset : JsMap.set ((a, b) :: m) k v = (a, b) :: JsMap.set m k v :=
        by simp [JsMap.set, hp']
      rw [hset, List.map_cons, List.nodup_cons]
      refine ⟨?_, jsMap_set_keys_nodup m k v hm⟩
      intro hmem
      rcases jsMap_mem_keys_set m k v a hmem with h1 | h1
      · exact hna h1
      · rw [h1] at hp'
        simp at hp'

/-- With duplicate-free images, at most one element maps to any value. -/
theorem filter_map_nodup_length {α β : Type} [BEq β] [LawfulBEq β]
    (f : α → β) (e : β) :
    ∀ (l : List α), ((l.map f).Nodup) →
      (l.filter (fun x => f x == e)).length ≤ 1
  | [], _ => by simp
  | a :: l, h => by
    rw [List.map_cons, List.nodup_cons] at h
    obtain ⟨hna, hl⟩ := h
    by_cases hp : (f a == e) = true
    · have hfa : f a = e := by simpa using hp
      have hempty : l.filter (fun x => f x == e) = [] := by
        rw [List.filter_eq_nil_iff]
        intro x hx hfx
        apply hna
        have hfx' : f x = e := by simpa using hfx
        exact List.mem_map.mpr ⟨x, hx, by rw [hfx', hfa]⟩
      simp [List.filter_cons, hp, hempty]
    · have hp' : (f a == e) = false := by simpa using hp
      have := filter_map_nodup_length f e l hl
      simpa [List.filter_cons, hp'] using this

/-- Lists of length at most one are empty or singletons. -/
theorem length_le_one_cases {α : Type} :
    ∀ (l : List α), l.length ≤ 1 → l = [] ∨ ∃ a, l = [a]
  | [], _ => Or.inl rfl
  | [a], _ => Or.inr ⟨a, rfl⟩
  | _ :: _ :: _, h => by simp at h

/-- A well-formed remote-tracks map holds at most one entry per
(endpoint, media kind) pair. -/
theorem wf_remoteEntryCount_le_one (rt : RemoteTracksMap)
    (hwf : wfRemoteTracks rt) (e k : String) :
    remoteEntryCount rt e k ≤ 1 := by
  obtain ⟨houter, hinner⟩ := hwf
  have hflt := filter_map_nodup_length (fun p => p.1) e rt houter
  rcases length_le_one_cases _ hflt with h | ⟨p, h⟩
  · simp [remoteEntryCount, h]
  · have hp : p ∈ rt := by
      have : p ∈ rt.filter (fun p => p.1 == e) := by simp [h]
      exact List.mem_of_mem_filter this
    have := filter_map_nodup_length (fun q => q.1) k p.2 (hinner p hp)
    simpa [remoteEntryCount, h] using this

/-- C9: a notification whose (endpoint, media kind) slot already holds the
same underlying WebRTC track is ignored — map unchanged, nothing emitted; a
notification whose slot holds a different track replaces the entry and
emits a remote-track-added event for the new entry; and the map keeps at
most one remote track per (endpoint, media kind) pair. -/
theorem createRemoteTrack_spec (rt : RemoteTracksMap) (owner : String)
    (stream track : Nat) (mediaType videoType : String) (ssrc : Nat)
    (muted : Bool) :
    (∀ et, lookupRemote rt owner mediaType = some et → et.track = track →
      createRemoteTrack rt owner stream track mediaType videoType ssrc
        muted = (rt, []))
    ∧ (∀ et, lookupRemote rt owner mediaType = some et →
        et.track ≠ track →
        lookupRemote (createRemoteTrack rt owner stream track mediaType
            videoType ssrc muted).1 owner mediaType
          = some { ownerEndpointId := owner, stream := stream
                   track := track, mediaType := mediaType
                   videoType := videoType, ssrc := ssrc, muted := muted }
        ∧ (createRemoteTrack rt owner stream track mediaType videoType
            ssrc muted).2
          = [RtcTrackEvent.remoteTrackAdded
              { ownerEndpointId := owner, stream := stream, track := track
                mediaType := mediaType, videoType := videoType
                ssrc := ssrc, muted := muted }])
    ∧ (wfRemoteTracks rt →
        wfRemoteTracks (createRemoteTrack rt owner stream track mediaType
          videoType ssrc muted).1
        ∧ ∀ e k, remoteEntryCount (createRemoteTrack rt owner stream track
            mediaType videoType ssrc muted).1 e k ≤ 1) := by
  have hinnerwf : ∀ (mm : JsMap String JitsiRemoteTrack),
      wfRemoteTracks rt → (mm.map (fun q => q.1)).Nodup →
      wfRemoteTracks (rt.set owner mm) := by
    intro mm hwf hmm
    refine ⟨jsMap_set_keys_nodup rt owner mm hwf.1, ?_⟩
    intro p hp
    rcases jsMap_mem_set rt owner mm p hp with h | h
    · exact hwf.2 p h
    · rw [h]
      exact hmm
  have hmem_of_get : ∀ (mm : JsMap String JitsiRemoteTrack),
      rt.get? owner = some mm → ∃ p ∈ rt, p.2 = mm := by
    intro mm hget
    rw [JsMap.get?] at hget
    rcases Option.map_eq_some'.mp hget with ⟨p, hfind, hval⟩
    exact ⟨p, List.mem_of_find?_eq_some hfind, hval⟩
  refine ⟨?_, ?_, ?_⟩
  · intro et hlook htr
    rw [lookupRemote] at hlook
    cases hm : rt.get? owner with
    | none =>
      rw [hm] at hlook
      cases hlook
    | some m =>
      rw [hm] at hlook
      simp only [Option.some_bind] at hlook
      have htrb : (et.track == track) = true := by simp [htr]
      simp [createRemoteTrack, hm, hlook, htrb]
  · intro et hlook hne
    rw [lookupRemote] at hlook
    cases hm : rt.get? owner with
    | none =>
      rw [hm] at hlook
      cases hlook
    | some m =>
      rw [hm] at hlook
      simp only [Option.some_bind] at hlook
      have hneb : (et.track == track) = false := by
        rw [beq_eq_false_iff_ne]
        exact hne
      constructor
      · simp only [createRemoteTrack, hm, hlook, hneb]
        simp only [Bool.false_eq_true, if_false]
        rw [lookupRemote, jsMap_get?_set_self]
        simp [jsMap_get?_set_self]
      · simp [createRemoteTrack, hm, hlook, hneb]
  · intro hwf
    have hres : wfRemoteTracks (createRemoteTrack rt owner stream track
        mediaType videoType ssrc muted).1 := by
      cases hm : rt.get? owner with
      | none =>
        have hstep : wfRemoteTracks (rt.set owner []) :=
          hinnerwf [] hwf (by simp)
        have : wfRemoteTracks ((rt.set owner []).set owner
            (JsMap.set ([] : JsMap String JitsiRemoteTrack) mediaType
              { ownerEndpointId := owner, stream := stream, track := track
                mediaType := mediaType, videoType := videoType
                ssrc := ssrc, muted := muted })) := by
          refine ⟨jsMap_set_keys_nodup _ owner _ hstep.1, ?_⟩
          intro p hp
          rcases jsMap_mem_set _ owner _ p hp with h | h
          · exact hstep.2 p h
          · rw [h]
            simp [JsMap.set]
        simpa [createRemoteTrack, hm] using this
      | some m =>
        obtain ⟨p, hpmem, hpval⟩ := hmem_of_get m hm
        have hmnodup : (m.map (fun q => q.1)).Nodup := by
          rw [← hpval]
          exact hwf.2 p hpmem
        have hsetwf : wfRemoteTracks (rt.set owner
            (m.set mediaType
              { ownerEndpointId := owner, stream := stream, track := track
                mediaType := mediaType, videoType := videoType
                ssrc := ssrc, muted := muted })) :=
          hinnerwf _ hwf (jsMap_set_keys_nodup m mediaType _ hmnodup)
        cases hex : m.get? mediaType with
        | none => simpa [createRemoteTrack, hm, hex] using hsetwf
        | some et =>
          by_cases htr : (et.track == track) = true
          · simpa [createRemoteTrack, hm, hex, htr] using hwf
          · have htr' : (et.track == track) = false := by simpa using htr
            simpa [createRemoteTrack, hm, hex, htr'] using hsetwf
    exact ⟨hres, fun e k => wf_remoteEntryCount_le_one _ hres e k⟩

/-- Witness for C9 at a concrete map: a duplicate notification is ignored,
a differing-track notification overwrites and keeps one entry per pair. -/
theorem createRemoteTrack_spec_witness :
    createRemoteTrack c9Map "alice" 5 40 "video" "camera" 111 false
      = (c9Map, [])
    ∧ lookupRemote (createRemoteTrack c9Map "alice" 6 41 "video" "camera"
        112 true).1 "alice" "video"
      = some { ownerEndpointId := "alice", stream := 6, track := 41
               mediaType := "video", videoType := "camera", ssrc := 112
               muted := true }
    ∧ remoteEntryCount (createRemoteTrack c9Map "alice" 6 41 "video"
        "camera" 112 true).1 "alice" "video" ≤ 1 := by
  refine ⟨(createRemoteTrack_spec c9Map "alice" 5 40 "video" "camera" 111
      false).1 c9Track rfl rfl,
    ((createRemoteTrack_spec c9Map "alice" 6 41 "video" "camera" 112
      true).2.1 c9Track rfl (by decide)).1,
    ((createRemoteTrack_spec c9Map "alice" 6 41 "video" "camera" 112
      true).2.2 ?_).2 "alice" "video"⟩
  constructor
  · decide
  · intro p hp
    have hp' : p = ("alice", [("video", c9Track)]) := by
      simpa [c9Map] using hp
    rw [hp']
    decide

/-- C10: `getTrackBySSRC` throws exactly on non-number arguments (whatever
the track state), never returns `undefined` for a number (the result is
always an `ok` value), answers `null` exactly when no local primary SSRC
and no remote SSRC matches, prefers a matching local track over any remote
track, and any returned track really carries the requested SSRC. -/
theorem getTrackBySSRC_spec (st : PCState) (n : Nat) (s : String) :
    (∃ msg, getTrackBySSRC st (JsInput.str s) = Except.error msg)
    ∧ (∃ msg, getTrackBySSRC st JsInput.undef = Except.error msg)
    ∧ (∃ r, getTrackBySSRC st (JsInput.num n) = Except.ok r)
    ∧ (getTrackBySSRC st (JsInput.num n) = Except.ok none
        ↔ (∀ t ∈ st.localTracks, getLocalSSRC st.localSSRCs t ≠ some n)
          ∧ ∀ r ∈ getRemoteTracksAll st.remoteTracks, r.ssrc ≠ n)
    ∧ (∀ t, getTrackBySSRC st (JsInput.num n)
          = Except.ok (some (JitsiTrack.localTrack t)) →
        getLocalSSRC st.localSSRCs t = some n ∧ t ∈ st.localTracks)
    ∧ (∀ t ∈ st.localTracks, getLocalSSRC st.localSSRCs t = some n →
        ∃ t', getTrackBySSRC st (JsInput.num n)
            = Except.ok (some (JitsiTrack.localTrack t'))
          ∧ getLocalSSRC st.localSSRCs t' = some n)
    ∧ (∀ r, getTrackBySSRC st (JsInput.num n)
          = Except.ok (some (JitsiTrack.remoteTrack r)) →
        r.ssrc = n ∧ r ∈ getRemoteTracksAll st.remoteTracks
          ∧ ∀ t ∈ st.localTracks,
              getLocalSSRC st.localSSRCs t ≠ some n) := by
  refine ⟨⟨_, rfl⟩, ⟨_, rfl⟩, ?_, ?_, ?_, ?_, ?_⟩
  · cases hl : st.localTracks.find?
        (fun t => getLocalSSRC st.localSSRCs t == some n) with
    | some t =>
      exact ⟨some (JitsiTrack.localTrack t), by simp [getTrackBySSRC, hl]⟩
    | none =>
      cases hr : (getRemoteTracksAll st.remoteTracks).find?
          (fun r => r.ssrc == n) with
      | some r =>
        exact ⟨some (JitsiTrack.remoteTrack r),
          by simp [getTrackBySSRC, hl, hr]⟩
      | none => exact ⟨none, by simp [getTrackBySSRC, hl, hr]⟩
  · cases hl : st.localTracks.find?
        (fun t => getLocalSSRC st.localSSRCs t == some n) with
    | some t =>
      simp only [getTrackBySSRC, hl]
      constructor
      · intro h
        cases h
      · rintro ⟨hlocal, -⟩
        have := List.find?_some hl
        have hmem := List.mem_of_find?_eq_some hl
        exact absurd (by simpa using this) (hlocal t hmem)
    | none =>
      cases hr : (getRemoteTracksAll st.remoteTracks).find?
          (fun r => r.ssrc == n) with
      | some r =>
        simp only [getTrackBySSRC, hl, hr]
        constructor
        · intro h
          cases h
        · rintro ⟨-, hremote⟩
          have := List.find?_some hr
          have hmem := List.mem_of_find?_eq_some hr
          exact absurd (by simpa using this) (hremote r hmem)
      | none =>
        simp only [getTrackBySSRC, hl, hr]
        constructor
        · intro _
          constructor
          · intro t ht hssrc
            have := List.find?_eq_none.mp hl t ht
            simp [hssrc] at this
          · intro r hrmem hssrc
            have := List.find?_eq_none.mp hr r hrmem
            simp [hssrc] at this
        · intro _
          trivial
  · intro t h
    cases hl : st.localTracks.find?
        (fun t => getLocalSSRC st.localSSRCs t == some n) with
    | some t0 =>
      simp only [getTrackBySSRC, hl] at h
      cases h
      exact ⟨by simpa using List.find?_some hl,
        List.mem_of_find?_eq_some hl⟩
    | none =>
      cases hr : (getRemoteTracksAll st.remoteTracks).find?
          (fun r => r.ssrc == n) with
      | some r =>
        simp only [getTrackBySSRC, hl, hr] at h
        cases h
      | none =>
        simp only [getTrackBySSRC, hl, hr] at h
        cases h
  · intro t ht hssrc
    cases hl : st.localTracks.find?
        (fun t => getLocalSSRC st.localSSRCs t == some n) with
    | some t0 =>
      exact ⟨t0, by simp [getTrackBySSRC, hl],
        by simpa using List.find?_some hl⟩
    | none =>
      have := List.find?_eq_none.mp hl t ht
      simp [hssrc] at this
  · intro r h
    cases hl : st.localTracks.find?
        (fun t => getLocalSSRC st.localSSRCs t == some n) with
    | some t0 =>
      simp only [getTrackBySSRC, hl] at h
      cases h
    | none =>
      cases hr : (getRemoteTracksAll st.remoteTracks).find?
          (fun r => r.ssrc == n) with
      | some r0 =>
        simp only [getTrackBySSRC, hl, hr] at h
        cases h
        refine ⟨by simpa using List.find?_some hr,
          List.mem_of_find?_eq_some hr, ?_⟩
        intro t ht hssrc
        have := List.find?_eq_none.mp hl t ht
        simp [hssrc] at this
      | none =>
        simp only [getTrackBySSRC, hl, hr] at h
        cases h

/-- Witness for C10 at a concrete state. -/
theorem getTrackBySSRC_spec_witness :
    (∃ t', getTrackBySSRC c10State (JsInput.num 111)
        = Except.ok (some (JitsiTrack.localTrack t'))
      ∧ getLocalSSRC c10State.localSSRCs t' = some 111)
    ∧ getTrackBySSRC c10State (JsInput.num 999) = Except.ok none := by
  refine ⟨(getTrackBySSRC_spec c10State 111 "x").2.2.2.2.2.1
      { rtcId := 3 } (by decide) (by rfl),
    ((getTrackBySSRC_spec c10State 999 "x").2.2.2.1).mpr ⟨?_, ?_⟩⟩
  · decide
  · decide

/-- C6 counterexample: a receive-only SSRC with `mslabel -` but no cname
line makes the function throw (`none` in the embedding) instead of
returning a list that keeps one rewritten cname line for the SSRC. -/
theorem replaceDefaultUnifiedPlanMsid_crash :
    replaceDefaultUnifiedPlanMsid chromeCaps
        [{ id := 7, attr := "mslabel", value := "-" }] = none
    ∧ problematicIds [{ id := 7, attr := "mslabel", value := "-" }]
      = [7] := by
  refine ⟨rfl, rfl⟩

/-- Finding a cname line for an SSRC equals finding cname among the lines
of that SSRC. -/
theorem find?_cname_filter (id : Nat) :
    ∀ (l : List SsrcEntry),
      l.find? (fun x => x.id == id && x.attr == "cname")
        = (l.filter (fun x => x.id == id)).find?
            (fun x => x.attr == "cname")
  | [] => rfl
  | a :: l => by
    by_cases ha : (a.id == id) = true
    · by_cases hc : (a.attr == "cname") = true
      · simp [List.find?_cons, List.filter_cons, ha, hc]
      · have hc' : (a.attr == "cname") = false := by simpa using hc
        simp [List.find?_cons, List.filter_cons, ha, hc',
          find?_cname_filter id l]
    · have ha' : (a.id == id) = false := by simpa using ha
      simp [List.find?_cons, List.filter_cons, ha',
        find?_cname_filter id l]

/-- An outer filter absorbs an inner filter it subsumes. -/
theorem filter_filter_subsume {α : Type} (q r : α → Bool)
    (h : ∀ x, q x = true → r x = true) :
    ∀ l : List α, (l.filter r).filter q = l.filter q
  | [] => rfl
  | a :: l => by
    by_cases hr : r a = true
    · by_cases hq : q a = true
      · simp [List.filter_cons, hr, hq, filter_filter_subsume q r h l]
      · have hq' : q a = false := by simpa using hq
        simp [List.filter_cons, hr, hq', filter_filter_subsume q r h l]
    · have hr' : r a = false := by simpa using hr
      have hq' : q a = false := by
        by_cases hqa : q a = true
        · rw [h a hqa] at hr'
          cases hr'
        · simpa using hqa
      simp [List.filter_cons, hr', hq', filter_filter_subsume q r h l]

/-- Filtering with a predicate the inner filter excludes yields nothing. -/
theorem filter_filter_empty {α : Type} (q r : α → Bool)
    (h : ∀ x, q x = true → r x = false) (l : List α) :
    (l.filter r).filter q = [] := by
  rw [List.filter_eq_nil_iff]
  intro a ha hqa
  have h2 := (List.mem_filter.mp ha).2
  have h3 := h a (by simpa using hqa)
  rw [h3] at h2
  cases h2

/-- Invariant of the `forEach` fold of `replaceDefaultUnifiedPlanMsid`:
when every pending SSRC has a cname line, the fold succeeds; each pending
SSRC keeps exactly its first cname line, value rewritten; and lines
belonging to no pending SSRC are filtered identically before and after. -/
theorem msid_fold_spec :
    ∀ (rem : List Nat) (cur : List SsrcEntry),
      (∀ id ∈ rem, ∃ c, (cur.filter (fun l => l.id == id)).find?
          (fun l => l.attr == "cname") = some c) →
      ∃ res, List.foldlM msidStep cur rem = some res
        ∧ (∀ id ∈ rem, ∃ c,
            (cur.filter (fun l => l.id == id)).find?
              (fun l => l.attr == "cname") = some c
            ∧ res.filter (fun l => l.id == id)
              = [{ c with value := "recvonly-" ++ toString id }])
        ∧ (∀ p : SsrcEntry → Bool,
            (∀ id ∈ rem, ∀ l : SsrcEntry, l.id = id → p l = false) →
            res.filter p = cur.filter p)
  | [], cur, _ => ⟨cur, by simp, by simp, fun p _ => rfl⟩
  | id0 :: rest, cur, h => by
    obtain ⟨c, hc⟩ := h id0 (by simp)
    have hcmem : c ∈ cur.filter (fun l => l.id == id0) :=
      List.mem_of_find?_eq_some hc
    have hcid : (c.id == id0) = true := (List.mem_filter.mp hcmem).2
    have hcid' : c.id = id0 := by simpa using hcid
    have hcattr : (c.attr == "cname") = true := by
      simpa using List.find?_some hc
    have hstep : msidStep cur id0
        = some ((cur.filter (fun l => !(l.id == id0)))
            ++ [{ c with value := "recvonly-" ++ toString id0 }]) := by
      rw [msidStep, find?_cname_filter, hc]
    have hnew_at_id0 :
        ((cur.filter (fun (l : SsrcEntry) => !(l.id == id0)))
          ++ [{ c with value := "recvonly-" ++ toString id0 }]).filter
            (fun (l : SsrcEntry) => l.id == id0)
          = [{ c with value := "recvonly-" ++ toString id0 }] := by
      have hemp : (cur.filter (fun l => !(l.id == id0))).filter
          (fun l => l.id == id0) = [] :=
        filter_filter_empty (fun l => l.id == id0)
          (fun l => !(l.id == id0)) (fun x hx => by simp [hx]) cur
      rw [List.filter_append, hemp]
      simp [hcid']
    have hnew_at_other : ∀ id, id ≠ id0 →
        ((cur.filter (fun (l : SsrcEntry) => !(l.id == id0)))
          ++ [{ c with value := "recvonly-" ++ toString id0 }]).filter
            (fun (l : SsrcEntry) => l.id == id)
          = cur.filter (fun (l : SsrcEntry) => l.id == id) := by
      intro id hne
      rw [List.filter_append]
      have h1 : (cur.filter (fun l => !(l.id == id0))).filter
          (fun l => l.id == id) = cur.filter (fun l => l.id == id) :=
        filter_filter_subsume (fun l => l.id == id)
          (fun l => !(l.id == id0))
          (fun x hx => by
            have hxid : x.id = id := by simpa using hx
            simp [hxid, hne]) cur
      have h2 : ([{ c with value := "recvonly-" ++ toString id0 }] :
          List SsrcEntry).filter (fun l => l.id == id) = [] := by
        have : (c.id == id) = false := by
          rw [hcid', beq_eq_false_iff_ne]
          exact Ne.symm hne
        simp [List.filter_cons, this]
      rw [h1, h2, List.append_nil]
    have hrest : ∀ id ∈ rest, ∃ c2,
        (((cur.filter (fun (l : SsrcEntry) => !(l.id == id0)))
          ++ [{ c with value := "recvonly-" ++ toString id0 }]).filter
            (fun (l : SsrcEntry) => l.id == id)).find?
          (fun (l : SsrcEntry) => l.attr == "cname") = some c2 := by
      intro id hid
      by_cases hide : id = id0
      · rw [hide, hnew_at_id0]
        exact ⟨{ c with value := "recvonly-" ++ toString id0 },
          by rw [List.find?_cons_of_pos _ (by simpa using hcattr)]⟩
      · rw [hnew_at_other id hide]
        exact h id (by simp [hid])
    obtain ⟨res, hfold, hclause2, hclause3⟩ :=
      msid_fold_spec rest
        ((cur.filter (fun l => !(l.id == id0)))
          ++ [{ c with value := "recvonly-" ++ toString id0 }]) hrest
    refine ⟨res, ?_, ?_, ?_⟩
    · rw [List.foldlM_cons, hstep]
      simpa using hfold
    · intro id hid
      by_cases hide : id = id0
      · subst hide
        refine ⟨c, hc, ?_⟩
        by_cases hmem : id ∈ rest
        · obtain ⟨c2, hc2, hres2⟩ := hclause2 id hmem
          rw [hnew_at_id0] at hc2
          have hc2' : c2 = { c with value := "recvonly-" ++ toString id } :=
            by
            rw [List.find?_cons_of_pos _ (by simpa using hcattr)] at hc2
            exact (Option.some.injEq _ _ ▸ hc2).symm
          rw [hres2, hc2']
        · have hres3 := hclause3 (fun l => l.id == id) ?_
          · rw [hres3, hnew_at_id0]
          · intro id2 hid2 l hl
            have hne2 : id2 ≠ id := fun he => hmem (he ▸ hid2)
            show (l.id == id) = false
            rw [hl, beq_eq_false_iff_ne]
            exact hne2
      · have hid2 : id ∈ rest := by
          rcases List.mem_cons.mp hid with h1 | h1
          · exact absurd h1 hide
          · exact h1
        obtain ⟨c2, hc2, hres2⟩ := hclause2 id hid2
        rw [hnew_at_other id hide] at hc2
        exact ⟨c2, hc2, hres2⟩
    · intro p hp
      have hcond : ∀ id ∈ rest, ∀ l : SsrcEntry, l.id = id → p l = false :=
        fun id hid => hp id (by simp [hid])
      rw [hclause3 p hcond, List.filter_append]
      have h1 : (cur.filter (fun l => !(l.id == id0))).filter p
          = cur.filter p :=
        filter_filter_subsume p (fun l => !(l.id == id0))
          (fun x hx => by
            by_cases hxid : x.id = id0
            · have hfalse := hp id0 (by simp) x hxid
              rw [hfalse] at hx
              cases hx
            · simp [hxid]) cur
      have h2 : ([{ c with value := "recvonly-" ++ toString id0 }] :
          List SsrcEntry).filter p = [] := by
        have hpc : p { c with value := "recvonly-" ++ toString id0 }
            = false := hp id0 (by simp) _ (by simp [hcid'])
        simp [List.filter_cons, hpc]
      rw [h1, h2, List.append_nil]

/-- C6 (amended): in the Chrome-above-70 environment the guard admits, and
provided every receive-only SSRC (mslabel `-`) has a cname line, the
returned list keeps exactly one line per such SSRC — its first cname line
with the value rewritten to `recvonly-<ssrc>` — removes all its other
attribute lines, and filters lines of all other SSRCs identically to the
input. -/
theorem replaceDefaultUnifiedPlanMsid_spec (b : BrowserCaps)
    (ssrcLines : List SsrcEntry)
    (hb : b.chromeGreaterThan70 = true)
    (hcname : ∀ id ∈ problematicIds ssrcLines,
      ∃ l ∈ ssrcLines, l.id = id ∧ l.attr = "cname") :
    ∃ res, replaceDefaultUnifiedPlanMsid b ssrcLines = some res
      ∧ (∀ id ∈ problematicIds ssrcLines, ∃ c,
          (ssrcLines.filter (fun l => l.id == id)).find?
            (fun l => l.attr == "cname") = some c
          ∧ res.filter (fun l => l.id == id)
            = [{ c with value := "recvonly-" ++ toString id }])
      ∧ res.filter (fun l => !((problematicIds ssrcLines).contains l.id))
        = ssrcLines.filter
            (fun l => !((problematicIds ssrcLines).contains l.id)) := by
  have hfoldhyp : ∀ id ∈ problematicIds ssrcLines, ∃ c,
      (ssrcLines.filter (fun l => l.id == id)).find?
        (fun l => l.attr == "cname") = some c := by
    intro id hid
    obtain ⟨l, hl, hlid, hlattr⟩ := hcname id hid
    have hmem : l ∈ ssrcLines.filter (fun x => x.id == id) :=
      List.mem_filter.mpr ⟨hl, by simp [hlid]⟩
    have hsome : ((ssrcLines.filter (fun x => x.id == id)).find?
        (fun x => x.attr == "cname")).isSome :=
      List.find?_isSome.mpr ⟨l, hmem, by simp [hlattr]⟩
    rcases Option.isSome_iff_exists.mp hsome with ⟨c, hc⟩
    exact ⟨c, hc⟩
  obtain ⟨res, hfold, hclause2, hclause3⟩ :=
    msid_fold_spec (problematicIds ssrcLines) ssrcLines hfoldhyp
  refine ⟨res, ?_, hclause2, ?_⟩
  · rw [replaceDefaultUnifiedPlanMsid, hb]
    simpa [problematicIds] using hfold
  · refine hclause3 _ ?_
    intro id hid l hl
    have hcont : (problematicIds ssrcLines).contains l.id = true := by
      rw [List.elem_iff, hl]
      exact hid
    show (!((problematicIds ssrcLines).contains l.id)) = false
    rw [hcont]
    rfl

/-- Witness for the amended C6 statement at a concrete line list. -/
theorem replaceDefaultUnifiedPlanMsid_spec_witness :
    ∃ res, replaceDefaultUnifiedPlanMsid chromeCaps c6Lines = some res
      ∧ (∀ id ∈ problematicIds c6Lines, ∃ c,
          (c6Lines.filter (fun l => l.id == id)).find?
            (fun l => l.attr == "cname") = some c
          ∧ res.filter (fun l => l.id == id)
            = [{ c with value := "recvonly-" ++ toString id }])
      ∧ res.filter (fun l => !((problematicIds c6Lines).contains l.id))
        = c6Lines.filter
            (fun l => !((problematicIds c6Lines).contains l.id)) := by
  exact replaceDefaultUnifiedPlanMsid_spec chromeCaps c6Lines rfl
    (by decide)

/-- C1 (failing-input evaluation): with SSRC "1" cached for `trackA` and
an SDP announcing the new SSRC "2" for it, `updatePlanBTrackIdsToSSRCs`
returns the SDP unchanged — the announced SSRC stays "2" instead of the
cached "1" — because `updateTrackIdsToSSRCs` ends with `return sdp`,
discarding the rewritten `newSdp`; the rewrite it computes and drops
(`replaceSsrcLines "2" "1"`) would indeed have changed the SDP. -/
theorem updateTrackIdsToSSRCs_returns_input :
    (updatePlanBTrackIdsToSSRCs c1Cache c1Sdp).2 = c1Sdp
    ∧ getPlanBSSRCs (updatePlanBTrackIdsToSSRCs c1Cache c1Sdp).2 "trackA"
      = ["2"]
    ∧ JsMap.get? c1Cache "trackA" = some ["1"]
    ∧ replaceSsrcLines "2" "1" c1Sdp ≠ c1Sdp := by
  refine ⟨rfl, rfl, rfl, by decide⟩

end LibJitsi
